import Mathlib

/-!
# Block-storage I/O layer of the Horus target (`radio/src/targets/horus/diskio.cpp`)

A shallow embedding of the FatFs disk driver glue: `disk_initialize`, `disk_status`,
`disk_read`, `disk_write`, `disk_ioctl`, the lock hooks `ff_cre_syncobj` / `ff_req_grant` /
`ff_rel_grant`, and the mount wrappers `sdInit` / `sdDone` / `sdMounted`; and of the two
commands of the serial command line (`radio/src/cli.cpp`) that the specification speaks of,
`help` and `readsd`, with the command table and the line splitter.

Conventions of the embedding.

* Stateful code is a function from a `Machine` to a result and the next `Machine`.
* `uint32_t` / `DWORD` values are `Nat`s, reduced `% 2 ^ 32` at every place where the C code
  does arithmetic on them (`sdReadRetries += 1`, `sector++`, `ioMutexReq += 1`).
* A pointer is the `Nat` address it holds; RAM is a map from address to byte.
* The SD/SDIO driver (`sdio_sd.h`), the RTOS (`CoOS`) and the FatFs library are not part of
  the translated sources.  What they answer is a parameter of the model: the controller's
  answers to the `k`-th transfer are `Machine.outcome k`, every other answer is an argument.
* Every SD transfer and every `memcpy` of the driver is appended to a log kept in the
  `Machine` (`issued`, `copied`), so that "which hardware calls were made" is a statement
  about the final state.
-/

namespace Diskio

/-! ## Constants and result types -/

/-- `#define BLOCK_SIZE 512` -/
def BLOCK_SIZE : Nat := 512

/-- Range of a `DWORD` / `uint32_t`. -/
def DWORD_RANGE : Nat := 2 ^ 32

/-- FatFs `DRESULT` (header `diskio.h`, enumeration order of FatFs). -/
inductive DRESULT where
  | RES_OK
  | RES_ERROR
  | RES_WRPRT
  | RES_NOTRDY
  | RES_PARERR
  deriving DecidableEq, Repr

/-- FatFs `DSTATUS`: a byte of status flags. -/
abbrev DSTATUS := Nat

/-- Drive not initialized (FatFs `diskio.h`). -/
def STA_NOINIT : DSTATUS := 0x01
/-- No medium in the drive (FatFs `diskio.h`). -/
def STA_NODISK : DSTATUS := 0x02
/-- Write protected (FatFs `diskio.h`). -/
def STA_PROTECT : DSTATUS := 0x04

/-- The driver's `SD_Error`: `SD_OK` or one of its failure codes, which the code under study
never tells apart. -/
inductive SD_Error where
  | SD_OK
  | SD_FAIL (code : Nat)
  deriving DecidableEq, Repr

/-- The driver's `SDTransferState`. -/
inductive SDTransferState where
  | SD_TRANSFER_OK
  | SD_TRANSFER_BUSY
  | SD_TRANSFER_ERROR
  deriving DecidableEq, Repr

open DRESULT SD_Error SDTransferState

/-! ## The controller -/

/-- What the controller answers during one transfer.

* `start`: return value of `SD_ReadBlock` / `SD_ReadMultiBlocks` / `SD_WriteBlock` /
  `SD_WriteMultiBlocks`;
* `wait`: return value of `SD_WaitReadOperation` / `SD_WaitWriteOperation`;
* `busy`: how many times `SD_GetStatus()` answers `SD_TRANSFER_BUSY` before it settles;
* `error`: whether it settles on `SD_TRANSFER_ERROR` (otherwise `SD_TRANSFER_OK`);
* `moved`: how many bytes had been moved when a transfer that does not succeed stops.

A controller that answers `SD_TRANSFER_BUSY` for ever is not described by an `Attempt`:
the driver's completion poll has no bound and such a call never returns. -/
structure Attempt where
  start : SD_Error
  wait : SD_Error
  busy : Nat
  error : Bool
  moved : Nat
  deriving Repr

/-- The transfer went through on the controller's side. -/
def Attempt.ok (a : Attempt) : Bool :=
  a.start == SD_OK && a.wait == SD_OK && !a.error

/-- A transfer the controller completes at once. -/
def Attempt.success : Attempt :=
  { start := SD_OK, wait := SD_OK, busy := 0, error := false, moved := 0 }

/-- A transfer the controller refuses after `moved` bytes. -/
def Attempt.failure (moved : Nat) : Attempt :=
  { start := SD_FAIL 1, wait := SD_OK, busy := 0, error := false, moved := moved }

/-- Answer of the `i`-th call of `SD_GetStatus()` during a transfer. -/
def SD_GetStatus (a : Attempt) (i : Nat) : SDTransferState :=
  if i < a.busy then SD_TRANSFER_BUSY
  else if a.error then SD_TRANSFER_ERROR else SD_TRANSFER_OK

/-- The completion poll `while ((State = SD_GetStatus()) == SD_TRANSFER_BUSY);`
started at poll number `i`, with `left` busy answers still to come. -/
def pollState (a : Attempt) : (left i : Nat) → SDTransferState
  | 0, i => SD_GetStatus a i
  | left + 1, i =>
    if SD_GetStatus a i == SD_TRANSFER_BUSY then pollState a left (i + 1)
    else SD_GetStatus a i

/-- One SD transfer call, as it appears in the log. -/
inductive Transfer where
  | SD_ReadBlock (buff sector : Nat)
  | SD_ReadMultiBlocks (buff sector count : Nat)
  | SD_WriteBlock (buff sector : Nat)
  | SD_WriteMultiBlocks (buff sector count : Nat)
  deriving DecidableEq, Repr

/-- One `memcpy(dst, src, BLOCK_SIZE)` of the scratch relay, as it appears in the log. -/
structure Copy where
  dst : Nat
  src : Nat
  deriving DecidableEq, Repr

/-- State of the driver and of what it talks to.

* `SD_DMA_MODE`: whether the build defines `SD_DMA_MODE` (the `#if` in `__disk_read`);
* `scratch`: address of `DWORD scratch[BLOCK_SIZE / 4] __DMA`;
* `present`: `SD_Detect() == SD_PRESENT`;
* `outcome k`: the controller's answers during the `k`-th transfer since start-up;
* `mem`: RAM, byte by address (the caller's buffers and `scratch` live here);
* `card`: the medium, byte by `BLOCK_SIZE * sector + offset`;
* `sdReadRetries`: the global `uint32_t sdReadRetries`;
* `issued`: the SD transfers issued so far, oldest first;
* `copied`: the relay's `memcpy` calls so far, oldest first. -/
structure Machine where
  SD_DMA_MODE : Bool
  scratch : Nat
  present : Bool
  outcome : Nat → Attempt
  mem : Nat → Nat
  card : Nat → Nat
  sdReadRetries : Nat
  issued : List Transfer
  copied : List Copy

/-- The controller's answers for the transfer that is issued next. -/
def Machine.next (m : Machine) : Attempt := m.outcome m.issued.length

/-- Number of bytes a transfer of `count` sectors moves: all of them when it goes through,
at most `moved` of them when it does not. -/
def xferLen (a : Attempt) (count : Nat) : Nat :=
  if a.ok then BLOCK_SIZE * count else min a.moved (BLOCK_SIZE * count)

/-- Modelled from the spec: the read transfer of the SD driver (`sdio_sd.c` is not among the
translated sources).  The controller moves the bytes of sector `sector` onwards into RAM at
`buff` and the call is logged as `t`. -/
def sdReadTransfer (m : Machine) (t : Transfer) (buff sector count : Nat) :
    Attempt × Machine :=
  let a := m.next
  (a, { m with
          mem := fun x =>
            if buff ≤ x ∧ x < buff + xferLen a count then
              m.card (BLOCK_SIZE * sector + (x - buff))
            else m.mem x
          issued := m.issued ++ [t] })

/-- Modelled from the spec: the write transfer of the SD driver.  The controller moves the
bytes of RAM at `buff` onto the medium from sector `sector` onwards and the call is logged
as `t`. -/
def sdWriteTransfer (m : Machine) (t : Transfer) (buff sector count : Nat) :
    Attempt × Machine :=
  let a := m.next
  (a, { m with
          card := fun c =>
            if BLOCK_SIZE * sector ≤ c ∧ c < BLOCK_SIZE * sector + xferLen a count then
              m.mem (buff + (c - BLOCK_SIZE * sector))
            else m.card c
          issued := m.issued ++ [t] })

/-- `SD_ReadBlock(buff, sector, BLOCK_SIZE)` -/
def SD_ReadBlock (m : Machine) (buff sector : Nat) : Attempt × Machine :=
  sdReadTransfer m (Transfer.SD_ReadBlock buff sector) buff sector 1

/-- `SD_ReadMultiBlocks(buff, sector, BLOCK_SIZE, count)` -/
def SD_ReadMultiBlocks (m : Machine) (buff sector count : Nat) : Attempt × Machine :=
  sdReadTransfer m (Transfer.SD_ReadMultiBlocks buff sector count) buff sector count

/-- `SD_WriteBlock(buff, sector, BLOCK_SIZE)` -/
def SD_WriteBlock (m : Machine) (buff sector : Nat) : Attempt × Machine :=
  sdWriteTransfer m (Transfer.SD_WriteBlock buff sector) buff sector 1

/-- `SD_WriteMultiBlocks(buff, sector, BLOCK_SIZE, count)` -/
def SD_WriteMultiBlocks (m : Machine) (buff sector count : Nat) : Attempt × Machine :=
  sdWriteTransfer m (Transfer.SD_WriteMultiBlocks buff sector count) buff sector count

/-- `memcpy(dst, src, BLOCK_SIZE)`, logged. -/
def memcpy (m : Machine) (dst src : Nat) : Machine :=
  { m with
      mem := fun x =>
        if dst ≤ x ∧ x < dst + BLOCK_SIZE then m.mem (src + (x - dst)) else m.mem x
      copied := m.copied ++ [{ dst := dst, src := src }] }

/-! ## `disk_read` -/

/-- The buffer test of `__disk_read` and `__disk_write`:
`(DWORD)buff < 0x20000000 || ((DWORD)buff & 3)`. -/
def badBuffer (buff : Nat) : Bool :=
  decide (buff < 0x20000000) || (buff % 4 != 0)

/-- Body of the retry loop of `__disk_read` (lines 156-186): one transfer and its
classification as `RES_OK` or `RES_ERROR`. -/
def readAttempt (m : Machine) (buff sector count : Nat) : DRESULT × Machine :=
  let r := if count = 1 then SD_ReadBlock m buff sector
           else SD_ReadMultiBlocks m buff sector count
  let a := r.1
  let res :=
    if m.SD_DMA_MODE then
      if a.start = SD_OK then
        let Status := a.wait
        let State := pollState a a.busy 0
        if State = SD_TRANSFER_ERROR then RES_ERROR
        else if Status ≠ SD_OK then RES_ERROR
        else RES_OK
      else RES_ERROR
    else RES_OK
  (res, r.2)

/-- The loop `for (int retry=0; retry<3; retry++)` of `__disk_read`, with `left = 3 - retry`
iterations to go and `res` the value of the variable `res` on entry. -/
def readRetry : (left : Nat) → Machine → (buff sector count : Nat) → DRESULT →
    DRESULT × Machine
  | 0, m, _, _, _, res => (res, m)
  | left + 1, m, buff, sector, count, _ =>
    let r := readAttempt m buff sector count
    if r.1 = RES_OK then r
    else
      readRetry left { r.2 with sdReadRetries := (r.2.sdReadRetries + 1) % DWORD_RANGE }
        buff sector count r.1

/-- The relay loop `while(count--)` of `__disk_read` (lines 139-150).  `rd m sector` is the
nested call `disk_read(drv, (BYTE *)scratch, sector, 1)`; `res` is the value of the
variable `res` on entry. -/
def readRelay (rd : Machine → Nat → Option (DRESULT × Machine)) :
    (count : Nat) → Machine → (buff sector : Nat) → DRESULT → Option (DRESULT × Machine)
  | 0, m, _, _, res => some (res, m)
  | count + 1, m, buff, sector, _ =>
    match rd m sector with
    | none => none
    | some (res, m1) =>
      if res ≠ RES_OK then some (res, m1)
      else
        readRelay rd count (memcpy m1 buff m1.scratch) (buff + BLOCK_SIZE)
          ((sector + 1) % DWORD_RANGE) res

/-- `__disk_read` (= `disk_read`, `DISK_CACHE` undefined).  `depth` bounds the nesting of
calls: the function calls itself from the relay loop, and `none` is returned when the bound
is used up. -/
def disk_read : (depth : Nat) → Machine → (drv buff sector count : Nat) →
    Option (DRESULT × Machine)
  | 0, _, _, _, _, _ => none
  | depth + 1, m, drv, buff, sector, count =>
    if !m.present then some (RES_NOTRDY, m)
    else if badBuffer buff then
      readRelay (fun m1 s => disk_read depth m1 drv m1.scratch s 1) count m buff sector RES_OK
    else some (readRetry 3 m buff sector count RES_OK)

/-! ## `disk_write` -/

/-- The direct path of `__disk_write` (lines 231-254): one transfer, no retry. -/
def writeAttempt (m : Machine) (buff sector count : Nat) : DRESULT × Machine :=
  let r := if count = 1 then SD_WriteBlock m buff sector
           else SD_WriteMultiBlocks m buff sector count
  let a := r.1
  let res :=
    if a.start = SD_OK then
      let Status := a.wait
      let State := pollState a a.busy 0
      if State = SD_TRANSFER_ERROR ∨ Status ≠ SD_OK then RES_ERROR else RES_OK
    else RES_ERROR
  (res, r.2)

/-- The relay loop `while(count--)` of `__disk_write` (lines 218-227).  `wr m sector` is the
nested call `disk_write(drv, (BYTE *)scratch, sector, 1)`. -/
def writeRelay (wr : Machine → Nat → Option (DRESULT × Machine)) :
    (count : Nat) → Machine → (buff sector : Nat) → DRESULT → Option (DRESULT × Machine)
  | 0, m, _, _, res => some (res, m)
  | count + 1, m, buff, sector, _ =>
    match wr (memcpy m m.scratch buff) sector with
    | none => none
    | some (res, m1) =>
      if res ≠ RES_OK then some (res, m1)
      else writeRelay wr count m1 (buff + BLOCK_SIZE) ((sector + 1) % DWORD_RANGE) res

/-- `__disk_write` (= `disk_write`).  `depth` bounds the nesting of calls as in
`disk_read`. -/
def disk_write : (depth : Nat) → Machine → (drv buff sector count : Nat) →
    Option (DRESULT × Machine)
  | 0, _, _, _, _, _ => none
  | depth + 1, m, drv, buff, sector, count =>
    if !m.present then some (RES_NOTRDY, m)
    else if badBuffer buff then
      writeRelay (fun m1 s => disk_write depth m1 drv m1.scratch s 1) count m buff sector RES_OK
    else some (writeAttempt m buff sector count)

/-- The log entry of the transfer a direct read of `count` sectors issues: the single-block
call for `count == 1`, the multi-block call for every other count. -/
def readCall (buff sector count : Nat) : Transfer :=
  if count = 1 then Transfer.SD_ReadBlock buff sector
  else Transfer.SD_ReadMultiBlocks buff sector count

/-- The log entry of the transfer a direct write of `count` sectors issues. -/
def writeCall (buff sector count : Nat) : Transfer :=
  if count = 1 then Transfer.SD_WriteBlock buff sector
  else Transfer.SD_WriteMultiBlocks buff sector count

/-- Every transfer goes through: a fault-free device. -/
def FaultFree (m : Machine) : Prop := ∀ k, (m.outcome k).ok = true

/-- The `len` bytes at `a` and the `len'` bytes at `b` do not overlap. -/
def NoOverlap (a len b len' : Nat) : Prop := a + len ≤ b ∨ b + len' ≤ a

instance (a len b len' : Nat) : Decidable (NoOverlap a len b len') := by
  unfold NoOverlap; infer_instance

/-! ## `disk_status` and `disk_initialize` -/

/-- `disk_status`: the status byte and the machine after the call. -/
def disk_status (m : Machine) (_drv : Nat) : DSTATUS × Machine :=
  let stat : DSTATUS := 0
  let stat := if !m.present then stat ||| STA_NODISK else stat
  (stat, m)

/-- `disk_initialize`; the argument `SD_Init` is what the call `SD_Init()` returns. -/
def disk_initialize (SD_Init : SD_Error) (drv : Nat) : DSTATUS :=
  let stat : DSTATUS := 0
  let stat := if drv ≠ 0 then stat ||| STA_NOINIT else stat
  let stat := if SD_Init ≠ SD_OK then stat ||| STA_NOINIT else stat
  stat

/-! ## Lock hooks -/

/-- The RTOS's `StatusType`, as far as `ff_req_grant` looks at it: `E_OK` or something
else. -/
inductive StatusType where
  | E_OK
  | E_FAIL (code : Nat)
  deriving DecidableEq, Repr

/-- The globals `uint32_t ioMutexReq = 0, ioMutexRel = 0;`. -/
structure Locks where
  ioMutexReq : Nat
  ioMutexRel : Nat
  deriving DecidableEq, Repr

/-- The initial values of the two counters. -/
def Locks.boot : Locks := { ioMutexReq := 0, ioMutexRel := 0 }

/-- `ff_req_grant`; `entered` is what `CoEnterMutexSection(mutex)` returns.  The result is
the `int` the function returns (`1` granted, `0` not) and the counters after the call. -/
def ff_req_grant (l : Locks) (entered : StatusType) : Nat × Locks :=
  let l1 := { l with ioMutexReq := (l.ioMutexReq + 1) % DWORD_RANGE }
  (if entered = StatusType.E_OK then 1 else 0, l1)

/-- `ff_rel_grant` -/
def ff_rel_grant (l : Locks) : Locks :=
  { l with ioMutexRel := (l.ioMutexRel + 1) % DWORD_RANGE }

/-- What a filesystem operation does to the lock hooks: it calls `ff_req_grant` when it is
entered (`enter`, with the RTOS's answer) and `ff_rel_grant` when it is left. -/
inductive FsEvent where
  | enter (entered : StatusType)
  | leave
  deriving DecidableEq, Repr

/-- Whether an event is a call of `ff_req_grant`. -/
def FsEvent.isEnter : FsEvent → Bool
  | FsEvent.enter _ => true
  | FsEvent.leave => false

/-- Whether an event is a call of `ff_rel_grant`. -/
def FsEvent.isLeave : FsEvent → Bool
  | FsEvent.enter _ => false
  | FsEvent.leave => true

/-- The counters together with the number of filesystem operations in progress. -/
structure FsState where
  locks : Locks
  pending : Nat
  deriving DecidableEq, Repr

/-- Start-up: counters at zero, no operation in progress. -/
def FsState.boot : FsState := { locks := Locks.boot, pending := 0 }

/-- Modelled from the spec: the bracket the filesystem library (FatFs, not among the
translated sources) puts around every operation, "each calling ff_req_grant once on entry
and ff_rel_grant on exit".  An operation can only be left when one is in progress. -/
def FsState.step (s : FsState) : FsEvent → Option FsState
  | FsEvent.enter entered =>
    some { locks := (ff_req_grant s.locks entered).2, pending := s.pending + 1 }
  | FsEvent.leave =>
    if s.pending = 0 then none
    else some { locks := ff_rel_grant s.locks, pending := s.pending - 1 }

/-- The state after a sequence of events, `none` when the sequence leaves an operation that
was never entered. -/
def FsState.run (s : FsState) : List FsEvent → Option FsState
  | [] => some s
  | e :: es =>
    match s.step e with
    | none => none
    | some s1 => s1.run es

/-- The events of `k` filesystem operations carried out one after the other, each granted
the lock. -/
def completedOps : Nat → List FsEvent
  | 0 => []
  | k + 1 => completedOps k ++ [FsEvent.enter StatusType.E_OK, FsEvent.leave]

/-! ## Mount wrappers -/

/-- The calls `sdInit` and `sdDone` make to the rest of the firmware, as logged. -/
inductive SdCall where
  | CoCreateMutex
  | f_mount_mount
  | sdGetFreeSectors
  | referenceSystemAudioFiles
  | stopSD
  | f_mount_unmount
  deriving DecidableEq, Repr

/-- FatFs's `FRESULT`, as far as `sdInit` looks at it. -/
inductive FRESULT where
  | FR_OK
  | FR_FAIL (code : Nat)
  deriving DecidableEq, Repr

/-- The mount layer's globals: `ioMutex`, `g_FATFS_Obj.fs_type`, and the log of calls. -/
structure SdState where
  ioMutex : Nat
  fs_type : Nat
  calls : List SdCall
  deriving DecidableEq, Repr

/-- Before `sdInit()`: `g_FATFS_Obj.fs_type == 0`, nothing called yet. -/
def SdState.boot : SdState := { ioMutex := 0, fs_type := 0, calls := [] }

/-- What the environment answers during `sdInit()`:
`mutexId` is the id `CoCreateMutex()` returns, `found` the FAT sub-type `f_mount` finds on
the volume (`FS_FAT12 = 1`, `FS_FAT16 = 2`, `FS_FAT32 = 3`; `0` when it finds none) and
`mountError` the error code `f_mount` gives when it fails for another reason. -/
structure InitEnv where
  CFG_MAX_MUTEX : Nat
  mutexId : Nat
  found : Nat
  mountError : Option Nat
  deriving DecidableEq, Repr

/-- Modelled from the spec: `f_mount(&g_FATFS_Obj, "", 1)` of the FatFs library (not among
the translated sources): "attempts to mount the filesystem descriptor"; on success the
descriptor carries the volume's type (non-zero), on failure it carries type `0`. -/
def f_mount_mount (s : SdState) (env : InitEnv) : FRESULT × SdState :=
  let s1 := { s with calls := s.calls ++ [SdCall.f_mount_mount] }
  match env.mountError with
  | some code => (FRESULT.FR_FAIL code, { s1 with fs_type := 0 })
  | none =>
    if env.found = 0 then (FRESULT.FR_FAIL 13, { s1 with fs_type := 0 })
    else (FRESULT.FR_OK, { s1 with fs_type := env.found })

/-- Modelled from the spec: `f_mount(NULL, "", 0)` of the FatFs library, "unmounts,
transitioning back to Unmounted": the registered descriptor's type is cleared. -/
def f_mount_unmount (s : SdState) : SdState :=
  { s with fs_type := 0, calls := s.calls ++ [SdCall.f_mount_unmount] }

/-- `sdMounted()`: the value returned and the state after the call. -/
def sdMounted (s : SdState) : Nat × SdState :=
  (if s.fs_type ≠ 0 then 1 else 0, s)

/-- `sdInit()` (build without `LOG_TELEMETRY`).  The warm-up `sdGetFreeSectors()` and
`referenceSystemAudioFiles()` are calls into code that is not translated; they are logged
and taken to leave the mount descriptor alone. -/
def sdInit (s : SdState) (env : InitEnv) : SdState :=
  let s1 := { s with ioMutex := env.mutexId, calls := s.calls ++ [SdCall.CoCreateMutex] }
  if s1.ioMutex ≥ env.CFG_MAX_MUTEX then s1
  else
    let r := f_mount_mount s1 env
    if r.1 = FRESULT.FR_OK then
      { r.2 with calls := r.2.calls ++ [SdCall.sdGetFreeSectors, SdCall.referenceSystemAudioFiles] }
    else r.2

/-- `sdDone()` (build without `LOG_TELEMETRY`). -/
def sdDone (s : SdState) : SdState :=
  let r := sdMounted s
  if r.1 ≠ 0 then
    let s1 := { r.2 with calls := r.2.calls ++ [SdCall.stopSD] }
    f_mount_unmount s1
  else r.2

/-! ## Lock object of the filesystem library -/

/-- `ff_cre_syncobj`: `*mutex = ioMutex; return 1;`.  The result is the `int` returned and
the value stored through `mutex`. -/
def ff_cre_syncobj (s : SdState) (_vol : Nat) : Nat × Nat :=
  (1, s.ioMutex)

/-- Modelled from the spec: `CoEnterMutexSection` of the RTOS (CoOS, not among the
translated sources).  On a lock object that was never created (an id at or above
`CFG_MAX_MUTEX`) it "fails fast with a configuration error rather than blocking"; on a valid
id it answers what the scheduler lets it answer, `answer`. -/
def CoEnterMutexSection (CFG_MAX_MUTEX mutexID : Nat) (answer : StatusType) : StatusType :=
  if mutexID ≥ CFG_MAX_MUTEX then StatusType.E_FAIL 1 else answer

/-! ## `disk_ioctl` -/

/-- FatFs control code: flush pending writes (FatFs `diskio.h`). -/
def CTRL_SYNC : Nat := 0
/-- FatFs control code: number of sectors of the medium (FatFs `diskio.h`). -/
def GET_SECTOR_COUNT : Nat := 1
/-- FatFs control code: size of a sector (FatFs `diskio.h`). -/
def GET_SECTOR_SIZE : Nat := 2

/-- The two fields of the driver's `SDCardInfo` that `disk_ioctl` reads. -/
structure SD_CardInfo where
  CardCapacity : Nat
  CardBlockSize : Nat
  deriving DecidableEq, Repr

/-- `*(DWORD*)buff = v`: the four bytes at `buff`, least significant first. -/
def storeDWORD (mem : Nat → Nat) (buff v : Nat) : Nat → Nat :=
  fun x =>
    if x = buff then v % 256
    else if x = buff + 1 then v / 256 % 256
    else if x = buff + 2 then v / 65536 % 256
    else if x = buff + 3 then v / 16777216 % 256
    else mem x

/-- `*(WORD*)buff = v`: the two bytes at `buff`, least significant first. -/
def storeWORD (mem : Nat → Nat) (buff v : Nat) : Nat → Nat :=
  fun x =>
    if x = buff then v % 256
    else if x = buff + 1 then v / 256 % 256
    else mem x

/-- The `DWORD` read back from the four bytes at `buff`. -/
def loadDWORD (mem : Nat → Nat) (buff : Nat) : Nat :=
  mem buff + 256 * mem (buff + 1) + 65536 * mem (buff + 2) + 16777216 * mem (buff + 3)

/-- The `WORD` read back from the two bytes at `buff`. -/
def loadWORD (mem : Nat → Nat) (buff : Nat) : Nat :=
  mem buff + 256 * mem (buff + 1)

/-- Number of calls of `SD_GetStatus()` the loop `while (SD_GetStatus() ==
SD_TRANSFER_BUSY);` makes, started at poll number `i` with `left` busy answers to come. -/
def syncPolls (a : Attempt) : (left i : Nat) → Nat
  | 0, i => i + 1
  | left + 1, i =>
    if SD_GetStatus a i == SD_TRANSFER_BUSY then syncPolls a left (i + 1) else i + 1

/-- `disk_ioctl`.  `info` is `SDCardInfo`, `a` carries the controller's answers to
`SD_GetStatus()`.  The result is the `DRESULT`, the machine after the call and the number of
`SD_GetStatus()` calls made; `none` stands for the division by a zero `CardBlockSize`. -/
def disk_ioctl (m : Machine) (info : SD_CardInfo) (a : Attempt) (drv ctrl buff : Nat) :
    Option (DRESULT × Machine × Nat) :=
  if drv ≠ 0 then some (RES_PARERR, m, 0)
  else if ctrl = GET_SECTOR_COUNT then
    if info.CardBlockSize = 0 then none
    else
      let count := (info.CardCapacity / info.CardBlockSize) % DWORD_RANGE
      some (RES_OK, { m with mem := storeDWORD m.mem buff count }, 0)
  else if ctrl = GET_SECTOR_SIZE then
    some (RES_OK, { m with mem := storeWORD m.mem buff (info.CardBlockSize % 2 ^ 16) }, 0)
  else if ctrl = CTRL_SYNC then
    some (RES_OK, m, syncPolls a a.busy 0)
  else some (RES_OK, m, 0)

/-! ## The command line (`radio/src/cli.cpp`) -/

/-- `#define CLI_COMMAND_MAX_ARGS 8` -/
def CLI_COMMAND_MAX_ARGS : Nat := 8

/-- The handlers the command table points to. -/
inductive CliFunction where
  | cliBeep
  | cliLs
  | cliRead
  | cliReadSD
  | cliPlay
  | cliDisplay
  | cliReboot
  | cliSet
  | cliStackInfo
  | cliMemoryInfo
  | cliTrace
  | cliHelp
  | cliDebugVars
  | cliRepeat
  deriving DecidableEq, Repr

/-- `struct CliCommand` -/
structure CliCommand where
  name : String
  func : CliFunction
  args : String
  deriving DecidableEq, Repr

/-- `cliCommands[]` without its sentinel (build without `PCBFLAMENCO` and
`JITTER_MEASURE`). -/
def cliCommands : List CliCommand :=
  [ { name := "beep", func := CliFunction.cliBeep, args := "[<frequency>] [<duration>]" },
    { name := "ls", func := CliFunction.cliLs, args := "<directory>" },
    { name := "read", func := CliFunction.cliRead, args := "<filename>" },
    { name := "readsd", func := CliFunction.cliReadSD,
      args := "<start sector> <sectors count> <read buffer size (sectors)>" },
    { name := "play", func := CliFunction.cliPlay, args := "<filename>" },
    { name := "print", func := CliFunction.cliDisplay, args := "<address> [<size>] | <what>" },
    { name := "p", func := CliFunction.cliDisplay, args := "<address> [<size>] | <what>" },
    { name := "reboot", func := CliFunction.cliReboot, args := "[wdt]" },
    { name := "set", func := CliFunction.cliSet, args := "<what> <value>" },
    { name := "stackinfo", func := CliFunction.cliStackInfo, args := "" },
    { name := "meminfo", func := CliFunction.cliMemoryInfo, args := "" },
    { name := "trace", func := CliFunction.cliTrace, args := "on | off" },
    { name := "help", func := CliFunction.cliHelp, args := "[<command>]" },
    { name := "debugvars", func := CliFunction.cliDebugVars, args := "" },
    { name := "repeat", func := CliFunction.cliRepeat, args := "<interval> <command>" } ]

/-- What a handler hands back: the lines it printed with `serialPrint` and its return
value. -/
structure CliResult where
  printed : List String
  ret : Int
  deriving DecidableEq, Repr

/-- The loop of `cliHelp` over the table (lines 737-744).  `argv0` and `argv1` are the
strings `argv[0]` and `argv[1]`, `printed` the lines printed so far; the second component is
`some 0` when the loop leaves through `return 0`. -/
def cliHelpLoop (argv0 argv1 : String) : List CliCommand → List String →
    List String × Option Int
  | [], printed => (printed, none)
  | command :: rest, printed =>
    if argv1 = "" ∨ command.name = argv0 then
      let printed1 := printed ++ [command.name ++ " " ++ command.args]
      if argv1 ≠ "" then (printed1, some 0)
      else cliHelpLoop argv0 argv1 rest printed1
    else cliHelpLoop argv0 argv1 rest printed

/-- `cliHelp`.  `argv` lists the non-NULL entries of the argument vector; `none` stands for
reading through a NULL `argv[1]`. -/
def cliHelp (argv : List String) : Option CliResult :=
  match argv with
  | argv0 :: argv1 :: _ =>
    match cliHelpLoop argv0 argv1 cliCommands [] with
    | (printed, some r) => some { printed := printed, ret := r }
    | (printed, none) =>
      if argv1 ≠ "" then
        some { printed := printed ++ ["Invalid command \"" ++ argv0 ++ "\""], ret := -1 }
      else some { printed := printed, ret := -1 }
  | _ => none

/-- The loop of `cliExecCommand` over the table (lines 756-760): the handler of the first
entry whose name is `argv[0]`. -/
def cliFindCommand (argv0 : String) : List CliCommand → Option CliFunction
  | [] => none
  | command :: rest =>
    if command.name = argv0 then some command.func else cliFindCommand argv0 rest

/-- `cliExecCommand`.  `func f argv` is what calling handler `f` on `argv` gives. -/
def cliExecCommand (func : CliFunction → List String → Option CliResult)
    (argv : List String) : Option CliResult :=
  match argv with
  | [] => none
  | argv0 :: _ =>
    if argv0 = "" then some { printed := [], ret := 0 }
    else
      match cliFindCommand argv0 cliCommands with
      | some f => func f argv
      | none => some { printed := ["Invalid command \"" ++ argv0 ++ "\""], ret := -1 }

/-- The pieces of a line between its blanks: every `' '` ends a piece (`line[i] = '\0'`) and
starts the next one. -/
def splitAtBlanks : List Char → List (List Char)
  | [] => [[]]
  | c :: cs =>
    match splitAtBlanks cs with
    | [] => [[]]
    | piece :: pieces => if c = ' ' then [] :: piece :: pieces else (c :: piece) :: pieces

/-- `cliExecLine`: the argument vector holds the first `CLI_COMMAND_MAX_ARGS` pieces of the
line. -/
def cliExecLine (func : CliFunction → List String → Option CliResult) (line : String) :
    Option CliResult :=
  cliExecCommand func (((splitAtBlanks line.toList).take CLI_COMMAND_MAX_ARGS).map String.mk)

/-- The handlers of the table.  `cliHelp` is translated; what the other handlers print and
return is not described here (`none`). -/
def cliHandlers : CliFunction → List String → Option CliResult
  | CliFunction.cliHelp, argv => cliHelp argv
  | _, _ => none

/-- What `toInt(argv, index, &val)` gives: its return value (`0` for an empty argument, `1`
for a number, `-1` for an argument that is not one) and the `int` stored in `val`. -/
structure ToInt where
  result : Int
  val : Int
  deriving DecidableEq, Repr

/-- How `cliReadSD` ends: one of its three complaints about an argument, a `disk_read`
error, or the report after the loop.  The function returns 0 in each case. -/
inductive ReadSDEnd where
  | invalidStartSector
  | invalidNumberOfSectors
  | invalidBufferSectors
  | diskReadError (res : DRESULT)
  | report
  deriving DecidableEq, Repr

/-- The loop `while (numberOfSectors > 0)` of `cliReadSD` (lines 201-214).  `loops` bounds
the number of iterations looked at: `none` is returned when the loop has not ended within
`loops` iterations (or a `disk_read` has not returned within `depth`). -/
def cliReadSDLoop (depth buffer startSector : Nat) (bufferSectors : Int) :
    (loops : Nat) → Machine → (numberOfSectors : Int) → Option (ReadSDEnd × Machine)
  | 0, _, _ => none
  | loops + 1, m, numberOfSectors =>
    if numberOfSectors > 0 then
      match disk_read depth m 0 buffer startSector bufferSectors.toNat with
      | none => none
      | some (res, m1) =>
        if res ≠ RES_OK then some (ReadSDEnd.diskReadError res, m1)
        else
          cliReadSDLoop depth buffer startSector bufferSectors loops m1
            (if numberOfSectors ≥ bufferSectors then numberOfSectors - bufferSectors else 0)
    else some (ReadSDEnd.report, m)

/-- `cliReadSD`.  `a1`, `a2`, `a3` are what `toInt` gives for `argv[1]`, `argv[2]`,
`argv[3]`, and `buffer` is the address `malloc(512*bufferSectors)` returns. -/
def cliReadSD (loops depth : Nat) (m : Machine) (a1 a2 a3 : ToInt) (buffer : Nat) :
    Option (ReadSDEnd × Machine) :=
  if a1.result = 0 ∨ a1.val < 0 then some (ReadSDEnd.invalidStartSector, m)
  else if a2.result = 0 ∨ a2.val < 0 then some (ReadSDEnd.invalidNumberOfSectors, m)
  else if a3.result = 0 ∨ a3.val < 0 then some (ReadSDEnd.invalidBufferSectors, m)
  else cliReadSDLoop depth buffer a1.val.toNat a3.val loops m a2.val

/-! ## The log of a relay -/

/-- The transfers a relay leaves in the log for its successful sub-transfers: the
sub-transfer for the `i`-th sector, which failed `f` times before it went through, leaves
`f + 1` entries `call (first + i)`. -/
def subTransferLog (call : Nat → Transfer) : (first : Nat) → List Nat → List Transfer
  | _, [] => []
  | first, f :: fs => List.replicate (f + 1) (call first) ++ subTransferLog call (first + 1) fs

/-! ## A concrete machine for evaluation -/

/-- A board with the scratch sector at `0x20000000`, a card whose byte at position `c` is
`c % 251 + 1`, RAM whose byte at address `x` is `x % 7`, and a controller that answers as
`outcome` says. -/
def board (present : Bool) (outcome : Nat → Attempt) : Machine :=
  { SD_DMA_MODE := true
    scratch := 0x20000000
    present := present
    outcome := outcome
    mem := fun x => x % 7
    card := fun c => c % 251 + 1
    sdReadRetries := 0
    issued := []
    copied := [] }

/-- The board with a card that never fails. -/
def quietBoard : Machine := board true (fun _ => Attempt.success)

/-- The board with a card on which every transfer fails. -/
def deadBoard : Machine := board true (fun _ => Attempt.failure 0)

/-- The board with a card whose first transfer fails and whose later ones go through. -/
def flakyBoard : Machine :=
  board true (fun k => if k = 0 then Attempt.failure 0 else Attempt.success)

/-- The board with a card whose first transfer goes through and whose later ones fail. -/
def dyingBoard : Machine :=
  board true (fun k => if k = 0 then Attempt.success else Attempt.failure 0)

/-- The board with no card in the slot. -/
def emptyBoard : Machine := board false (fun _ => Attempt.success)

end Diskio

namespace Diskio

open DRESULT SD_Error SDTransferState

/-! ## Helper lemmas: the completion poll and one transfer -/

theorem DWORD_RANGE_eq : DWORD_RANGE = 4294967296 := by
  norm_num [DWORD_RANGE]

theorem pollState_settles (a : Attempt) (left i : Nat) (h : i + left = a.busy) :
    pollState a left i = if a.error then SD_TRANSFER_ERROR else SD_TRANSFER_OK := by
  induction left generalizing i with
  | zero =>
    have : ¬ i < a.busy := by omega
    simp [pollState, SD_GetStatus, this]
  | succ n ih =>
    have hlt : i < a.busy := by omega
    have := ih (i + 1) (by omega)
    simp [pollState, SD_GetStatus, hlt, this]

theorem readAttempt_snd (m : Machine) (buff sector count : Nat) :
    (readAttempt m buff sector count).2 =
      (sdReadTransfer m (readCall buff sector count) buff sector count).2 := by
  unfold readAttempt readCall SD_ReadBlock SD_ReadMultiBlocks
  by_cases h : count = 1
  · subst h; simp
  · simp [h]

theorem readAttempt_fst (m : Machine) (buff sector count : Nat) :
    (readAttempt m buff sector count).1 =
      if m.SD_DMA_MODE = true ∧ m.next.ok = false then RES_ERROR else RES_OK := by
  have hp := pollState_settles
  unfold readAttempt SD_ReadBlock SD_ReadMultiBlocks sdReadTransfer Attempt.ok
  by_cases h : count = 1 <;> by_cases hd : m.SD_DMA_MODE = true <;>
    cases hs : m.next.start <;> cases hw : m.next.wait <;> cases he : m.next.error <;>
    simp [h, hd, hs, hw, he, hp m.next m.next.busy 0 (by omega)]

theorem writeAttempt_snd (m : Machine) (buff sector count : Nat) :
    (writeAttempt m buff sector count).2 =
      (sdWriteTransfer m (writeCall buff sector count) buff sector count).2 := by
  unfold writeAttempt writeCall SD_WriteBlock SD_WriteMultiBlocks
  by_cases h : count = 1
  · subst h; simp
  · simp [h]

theorem writeAttempt_fst (m : Machine) (buff sector count : Nat) :
    (writeAttempt m buff sector count).1 =
      if m.next.ok = true then RES_OK else RES_ERROR := by
  have hp := pollState_settles
  unfold writeAttempt SD_WriteBlock SD_WriteMultiBlocks sdWriteTransfer Attempt.ok
  by_cases h : count = 1 <;>
    cases hs : m.next.start <;> cases hw : m.next.wait <;> cases he : m.next.error <;>
    simp [h, hs, hw, he, hp m.next m.next.busy 0 (by omega)]

/-! ## Helper lemmas: the retry loop of `disk_read` -/

theorem readRetry_spec (left : Nat) (m : Machine) (buff sector count : Nat) (res0 : DRESULT)
    (hd : m.SD_DMA_MODE = true) (hr : m.sdReadRetries < DWORD_RANGE) :
    ∃ fails, fails ≤ left ∧
      (∀ i, i < fails → (m.outcome (m.issued.length + i)).ok = false) ∧
      (fails < left → (m.outcome (m.issued.length + fails)).ok = true) ∧
      (readRetry left m buff sector count res0).2.issued = m.issued ++
        List.replicate (if fails < left then fails + 1 else left) (readCall buff sector count) ∧
      (readRetry left m buff sector count res0).1 =
        (if fails < left then RES_OK else if left = 0 then res0 else RES_ERROR) ∧
      (readRetry left m buff sector count res0).2.sdReadRetries =
        (m.sdReadRetries + fails) % DWORD_RANGE := by
  induction left generalizing m res0 with
  | zero =>
    refine ⟨0, le_refl _, ?_, ?_, ?_, ?_, ?_⟩ <;> simp [readRetry, Nat.mod_eq_of_lt hr]
  | succ n ih =>
    by_cases h0 : (m.outcome m.issued.length).ok = true
    · refine ⟨0, Nat.zero_le _, ?_, ?_, ?_, ?_, ?_⟩ <;>
        simp [readRetry, readAttempt_fst, readAttempt_snd, sdReadTransfer, Machine.next, h0,
          Nat.mod_eq_of_lt hr]
    · have hf : (m.outcome m.issued.length).ok = false := by simpa using h0
      obtain ⟨m1, hm1⟩ : ∃ m1 : Machine, m1 =
          { (sdReadTransfer m (readCall buff sector count) buff sector count).2 with
            sdReadRetries := (m.sdReadRetries + 1) % DWORD_RANGE } := ⟨_, rfl⟩
      have e1 : m1.issued = m.issued ++ [readCall buff sector count] := by
        rw [hm1]; rfl
      have e2 : m1.outcome = m.outcome := by rw [hm1]; rfl
      have e3 : m1.sdReadRetries = (m.sdReadRetries + 1) % DWORD_RANGE := by rw [hm1]
      have e4 : m1.SD_DMA_MODE = true := by rw [hm1]; exact hd
      have hstep : readRetry (n + 1) m buff sector count res0 =
          readRetry n m1 buff sector count RES_ERROR := by
        rw [hm1]
        simp [readRetry, readAttempt_fst, readAttempt_snd, sdReadTransfer, Machine.next, hf, hd]
      obtain ⟨f, hle, hbefore, hat, hiss, hres, hcnt⟩ :=
        ih m1 RES_ERROR e4 (by rw [e3]; exact Nat.mod_lt _ (by simp [DWORD_RANGE]))
      rw [e1, e2] at hbefore hat
      rw [e1] at hiss
      rw [e3] at hcnt
      simp only [List.length_append, List.length_singleton] at hbefore hat
      refine ⟨f + 1, by omega, ?_, ?_, ?_, ?_, ?_⟩
      · intro i hi
        cases i with
        | zero => simpa using hf
        | succ j =>
          have := hbefore j (by omega)
          rw [← this]; congr 2; omega
      · intro hlt
        have := hat (by omega)
        rw [← this]; congr 2; omega
      · rw [hstep, hiss]
        by_cases hfn : f < n
        · simp [hfn, List.replicate_succ]
        · simp [hfn, List.replicate_succ]
      · rw [hstep, hres]
        by_cases hfn : f < n
        · simp [hfn]
        · by_cases hn : n = 0 <;> simp [hfn, hn]
      · rw [hstep, hcnt]
        simp [DWORD_RANGE]
        omega

/-! ## Helper lemmas: transfers on a fault-free device -/

theorem xferLen_ok (a : Attempt) (count : Nat) (h : a.ok = true) :
    xferLen a count = BLOCK_SIZE * count := by
  simp [xferLen, h]

theorem xferLen_le (a : Attempt) (count : Nat) : xferLen a count ≤ BLOCK_SIZE * count := by
  unfold xferLen
  split
  · exact le_refl _
  · exact Nat.min_le_right _ _

theorem disk_read_direct_faultFree (m : Machine) (d drv buff sector count : Nat)
    (hp : m.present = true) (hb : badBuffer buff = false) (hff : FaultFree m) :
    disk_read (d + 1) m drv buff sector count =
      some (RES_OK, (sdReadTransfer m (readCall buff sector count) buff sector count).2) := by
  have h0 := hff m.issued.length
  have h1 : (readAttempt m buff sector count).1 = RES_OK := by
    simp [readAttempt_fst, Machine.next, h0]
  have h2 : readAttempt m buff sector count =
      (RES_OK, (sdReadTransfer m (readCall buff sector count) buff sector count).2) :=
    Prod.ext h1 (readAttempt_snd m buff sector count)
  simp [disk_read, hp, hb, readRetry, h1, h2]

theorem disk_write_direct (m : Machine) (d drv buff sector count : Nat)
    (hp : m.present = true) (hb : badBuffer buff = false) :
    disk_write (d + 1) m drv buff sector count =
      some (if m.next.ok = true then RES_OK else RES_ERROR,
        (sdWriteTransfer m (writeCall buff sector count) buff sector count).2) := by
  have h2 : writeAttempt m buff sector count =
      (if m.next.ok = true then RES_OK else RES_ERROR,
        (sdWriteTransfer m (writeCall buff sector count) buff sector count).2) :=
    Prod.ext (writeAttempt_fst m buff sector count) (writeAttempt_snd m buff sector count)
  simp [disk_write, hp, hb, h2]

theorem disk_read_relay (m : Machine) (d drv buff sector count : Nat)
    (hp : m.present = true) (hb : badBuffer buff = true) :
    disk_read (d + 1) m drv buff sector count =
      readRelay (fun m1 s => disk_read d m1 drv m1.scratch s 1) count m buff sector RES_OK := by
  rw [disk_read]; simp [hp, hb]

theorem disk_write_relay (m : Machine) (d drv buff sector count : Nat)
    (hp : m.present = true) (hb : badBuffer buff = true) :
    disk_write (d + 1) m drv buff sector count =
      writeRelay (fun m1 s => disk_write d m1 drv m1.scratch s 1) count m buff sector
        RES_OK := by
  rw [disk_write]; simp [hp, hb]

theorem xferLen_faultFree (m : Machine) (count : Nat) (hff : FaultFree m) :
    xferLen m.next count = 512 * count := by
  rw [xferLen_ok m.next count (hff m.issued.length)]; rfl

/-! ## Helper lemmas: the scratch relay on a fault-free device -/

theorem readRelay_faultFree (d drv : Nat) :
    ∀ (n : Nat) (m : Machine) (buff sector : Nat) (res0 : DRESULT),
      m.present = true → badBuffer m.scratch = false → FaultFree m →
      NoOverlap buff (BLOCK_SIZE * n) m.scratch BLOCK_SIZE →
      sector + n ≤ DWORD_RANGE →
      ∃ m' : Machine,
        readRelay (fun m1 s => disk_read (d + 1) m1 drv m1.scratch s 1) n m buff sector res0 =
          some (if n = 0 then res0 else RES_OK, m') ∧
        m'.issued = m.issued ++
          (List.range n).map (fun i => Transfer.SD_ReadBlock m.scratch (sector + i)) ∧
        m'.copied = m.copied ++
          (List.range n).map (fun i => { dst := buff + BLOCK_SIZE * i, src := m.scratch }) ∧
        (∀ x, buff ≤ x → x < buff + BLOCK_SIZE * n →
          m'.mem x = m.card (BLOCK_SIZE * sector + (x - buff))) ∧
        (∀ x, ¬ (buff ≤ x ∧ x < buff + BLOCK_SIZE * n) →
          ¬ (m.scratch ≤ x ∧ x < m.scratch + BLOCK_SIZE) → m'.mem x = m.mem x) ∧
        m'.card = m.card ∧ m'.sdReadRetries = m.sdReadRetries ∧ m'.scratch = m.scratch ∧
        m'.present = m.present ∧ m'.outcome = m.outcome ∧
        m'.SD_DMA_MODE = m.SD_DMA_MODE := by
  intro n
  induction n with
  | zero =>
    intro m buff sector res0 _ _ _ _ _
    exact ⟨m, by simp [readRelay], by simp, by simp, by intro x h1 h2; simp at h2; omega,
      by intros; rfl, rfl, rfl, rfl, rfl, rfl, rfl⟩
  | succ n ih =>
    intro m buff sector res0 hp hs hff hno hsec
    have hok := hff m.issued.length
    have hlen : xferLen m.next 1 = 512 := by
      rw [xferLen_ok _ _ (by simpa [Machine.next] using hok)]; simp [BLOCK_SIZE]
    obtain ⟨m1, hm1⟩ : ∃ m1 : Machine, m1 =
      (sdReadTransfer m (readCall m.scratch sector 1) m.scratch sector 1).2 := ⟨_, rfl⟩
    obtain ⟨m2, hm2⟩ : ∃ m2 : Machine, m2 = memcpy m1 buff m1.scratch := ⟨_, rfl⟩
    have s1 : m1.scratch = m.scratch := by rw [hm1]; rfl
    have f1 : m2.scratch = m.scratch := by rw [hm2, ← s1]; rfl
    have f2 : m2.present = true := by rw [hm2, hm1]; exact hp
    have f3 : m2.outcome = m.outcome := by rw [hm2, hm1]; rfl
    have f4 : m2.card = m.card := by rw [hm2, hm1]; rfl
    have f5 : m2.sdReadRetries = m.sdReadRetries := by rw [hm2, hm1]; rfl
    have f6 : m2.SD_DMA_MODE = m.SD_DMA_MODE := by rw [hm2, hm1]; rfl
    have f7 : m2.issued = m.issued ++ [Transfer.SD_ReadBlock m.scratch sector] := by
      rw [hm2, hm1]; simp [memcpy, sdReadTransfer, readCall]
    have f8 : m2.copied = m.copied ++ [{ dst := buff, src := m.scratch }] := by
      rw [hm2, hm1]; simp [memcpy, sdReadTransfer]
    have f9 : ∀ x, m2.mem x =
        if buff ≤ x ∧ x < buff + 512 then
          (if m.scratch ≤ m.scratch + (x - buff) ∧ m.scratch + (x - buff) < m.scratch + 512
            then m.card (512 * sector + (m.scratch + (x - buff) - m.scratch))
            else m.mem (m.scratch + (x - buff)))
        else if m.scratch ≤ x ∧ x < m.scratch + 512
          then m.card (512 * sector + (x - m.scratch)) else m.mem x := by
      intro x
      rw [hm2, hm1]
      simp only [memcpy, sdReadTransfer, hlen, BLOCK_SIZE]
    have hstep :
        readRelay (fun m1 s => disk_read (d + 1) m1 drv m1.scratch s 1) (n + 1) m buff sector
          res0 =
        readRelay (fun m1 s => disk_read (d + 1) m1 drv m1.scratch s 1) n m2
          (buff + BLOCK_SIZE) ((sector + 1) % DWORD_RANGE) RES_OK := by
      rw [hm2, hm1]
      simp [readRelay, disk_read_direct_faultFree m d drv m.scratch sector 1 hp hs hff]
    have hno' : NoOverlap (buff + BLOCK_SIZE) (BLOCK_SIZE * n) m2.scratch BLOCK_SIZE := by
      rw [f1]; unfold NoOverlap BLOCK_SIZE at *; omega
    have hff' : FaultFree m2 := by intro k; rw [f3]; exact hff k
    have hsec' : (sector + 1) % DWORD_RANGE + n ≤ DWORD_RANGE := by
      unfold DWORD_RANGE at *; omega
    obtain ⟨m', hrun, hiss, hcop, hmem, hframe, hcard, hret, hscr, hpres, hout, hdma⟩ :=
      ih m2 (buff + BLOCK_SIZE) ((sector + 1) % DWORD_RANGE) RES_OK f2 (by rw [f1]; exact hs)
        hff' hno' hsec'
    have hshift : ∀ i, i < n → (sector + 1) % DWORD_RANGE + i = sector + (i + 1) := by
      intro i hi; unfold DWORD_RANGE at *; omega
    refine ⟨m', ?_, ?_, ?_, ?_, ?_, hcard.trans f4, hret.trans f5, hscr.trans f1,
      hpres.trans (f2.trans hp.symm), hout.trans f3, hdma.trans f6⟩
    · rw [hstep, hrun]; by_cases hn : n = 0 <;> simp [hn]
    · rw [hiss, f7, f1, List.range_succ_eq_map, List.append_assoc]
      congr 1
      simp only [List.map_cons, List.map_map, List.singleton_append, Nat.add_zero]
      congr 1
      apply List.map_congr_left
      intro i hi
      simp only [Function.comp, hshift i (List.mem_range.mp hi)]
    · rw [hcop, f8, f1, List.range_succ_eq_map, List.append_assoc]
      congr 1
      simp only [List.map_cons, List.map_map, List.singleton_append, Nat.mul_zero, Nat.add_zero]
      congr 1
      apply List.map_congr_left
      intro i _
      simp only [Function.comp, BLOCK_SIZE, Copy.mk.injEq, and_true]
      omega
    · intro x hx1 hx2
      unfold NoOverlap BLOCK_SIZE at hno
      unfold BLOCK_SIZE at *
      by_cases hfirst : x < buff + 512
      · rw [hframe x (by omega) (by rw [f1]; omega), f9 x]
        have e : m.scratch + (x - buff) - m.scratch = x - buff := by omega
        have e2 : x - buff < 512 := by omega
        simp [hx1, hfirst, e, e2]
      · rw [hmem x (by omega) (by omega), f4]
        by_cases hn : n = 0
        · subst hn; omega
        · have : (sector + 1) % DWORD_RANGE = sector + 1 := by
            rw [DWORD_RANGE_eq] at hsec ⊢; omega
          rw [this]
          have e : 512 * (sector + 1) + (x - (buff + 512)) = 512 * sector + (x - buff) := by
            omega
          rw [e]
    · intro x hx1 hx2
      unfold NoOverlap BLOCK_SIZE at hno
      unfold BLOCK_SIZE at *
      rw [hframe x (by omega) (by rw [f1]; exact hx2), f9 x]
      have h1 : ¬ (buff ≤ x ∧ x < buff + 512) := by omega
      simp [h1, hx2]

theorem writeRelay_faultFree (d drv : Nat) :
    ∀ (n : Nat) (m : Machine) (buff sector : Nat) (res0 : DRESULT),
      m.present = true → badBuffer m.scratch = false → FaultFree m →
      NoOverlap buff (BLOCK_SIZE * n) m.scratch BLOCK_SIZE →
      sector + n ≤ DWORD_RANGE →
      ∃ m' : Machine,
        writeRelay (fun m1 s => disk_write (d + 1) m1 drv m1.scratch s 1) n m buff sector res0 =
          some (if n = 0 then res0 else RES_OK, m') ∧
        m'.issued = m.issued ++
          (List.range n).map (fun i => Transfer.SD_WriteBlock m.scratch (sector + i)) ∧
        m'.copied = m.copied ++
          (List.range n).map (fun i => { dst := m.scratch, src := buff + BLOCK_SIZE * i }) ∧
        (∀ c, BLOCK_SIZE * sector ≤ c → c < BLOCK_SIZE * sector + BLOCK_SIZE * n →
          m'.card c = m.mem (buff + (c - BLOCK_SIZE * sector))) ∧
        (∀ c, ¬ (BLOCK_SIZE * sector ≤ c ∧ c < BLOCK_SIZE * sector + BLOCK_SIZE * n) →
          m'.card c = m.card c) ∧
        (∀ x, ¬ (m.scratch ≤ x ∧ x < m.scratch + BLOCK_SIZE) → m'.mem x = m.mem x) ∧
        m'.sdReadRetries = m.sdReadRetries ∧ m'.scratch = m.scratch ∧
        m'.present = m.present ∧ m'.outcome = m.outcome ∧
        m'.SD_DMA_MODE = m.SD_DMA_MODE := by
  intro n
  induction n with
  | zero =>
    intro m buff sector res0 _ _ _ _ _
    exact ⟨m, by simp [writeRelay], by simp, by simp, by intro c h1 h2; simp at h2; omega,
      by intros; rfl, by intros; rfl, rfl, rfl, rfl, rfl, rfl⟩
  | succ n ih =>
    intro m buff sector res0 hp hs hff hno hsec
    have hok := hff m.issued.length
    obtain ⟨m0, hm0⟩ : ∃ m0 : Machine, m0 = memcpy m m.scratch buff := ⟨_, rfl⟩
    obtain ⟨m1, hm1⟩ : ∃ m1 : Machine, m1 =
      (sdWriteTransfer m0 (writeCall m0.scratch sector 1) m0.scratch sector 1).2 := ⟨_, rfl⟩
    have g1 : m0.scratch = m.scratch := by rw [hm0]; rfl
    have g2 : m0.present = true := by rw [hm0]; exact hp
    have g3 : FaultFree m0 := by intro k; rw [hm0]; exact hff k
    have g4 : m0.next.ok = true := by rw [hm0]; exact hok
    have hlen : xferLen m0.next 1 = 512 := by
      rw [xferLen_ok _ _ g4]; simp [BLOCK_SIZE]
    have f1 : m1.scratch = m.scratch := by rw [hm1, ← g1]; rfl
    have f2 : m1.present = true := by rw [hm1]; exact g2
    have f3 : m1.outcome = m.outcome := by rw [hm1, hm0]; rfl
    have f5 : m1.sdReadRetries = m.sdReadRetries := by rw [hm1, hm0]; rfl
    have f6 : m1.SD_DMA_MODE = m.SD_DMA_MODE := by rw [hm1, hm0]; rfl
    have f7 : m1.issued = m.issued ++ [Transfer.SD_WriteBlock m.scratch sector] := by
      rw [hm1, hm0]; simp [memcpy, sdWriteTransfer, writeCall]
    have f8 : m1.copied = m.copied ++ [{ dst := m.scratch, src := buff }] := by
      rw [hm1, hm0]; simp [memcpy, sdWriteTransfer]
    have f9 : ∀ x, m1.mem x =
        if m.scratch ≤ x ∧ x < m.scratch + 512 then m.mem (buff + (x - m.scratch))
        else m.mem x := by
      intro x
      rw [hm1, hm0]
      simp only [memcpy, sdWriteTransfer, BLOCK_SIZE]
    have f4 : ∀ c, m1.card c =
        if 512 * sector ≤ c ∧ c < 512 * sector + 512 then
          m1.mem (m.scratch + (c - 512 * sector))
        else m.card c := by
      intro c
      have : m1.mem = m0.mem := by rw [hm1]; rfl
      rw [this, hm1]
      simp only [sdWriteTransfer, hlen, BLOCK_SIZE, g1]
      rw [hm0]; rfl
    have hstep :
        writeRelay (fun m1 s => disk_write (d + 1) m1 drv m1.scratch s 1) (n + 1) m buff sector
          res0 =
        writeRelay (fun m1 s => disk_write (d + 1) m1 drv m1.scratch s 1) n m1
          (buff + BLOCK_SIZE) ((sector + 1) % DWORD_RANGE) RES_OK := by
      have hw := disk_write_direct m0 d drv m0.scratch sector 1 g2 (by rw [g1]; exact hs)
      rw [g4] at hw
      rw [hm1]
      simp only [writeRelay, ← hm0, hw]
      simp
    have hno' : NoOverlap (buff + BLOCK_SIZE) (BLOCK_SIZE * n) m1.scratch BLOCK_SIZE := by
      rw [f1]; unfold NoOverlap BLOCK_SIZE at *; omega
    have hff' : FaultFree m1 := by intro k; rw [f3]; exact hff k
    have hsec' : (sector + 1) % DWORD_RANGE + n ≤ DWORD_RANGE := by
      rw [DWORD_RANGE_eq] at hsec ⊢; omega
    obtain ⟨m', hrun, hiss, hcop, hcard, hcframe, hmframe, hret, hscr, hpres, hout, hdma⟩ :=
      ih m1 (buff + BLOCK_SIZE) ((sector + 1) % DWORD_RANGE) RES_OK f2 (by rw [f1]; exact hs)
        hff' hno' hsec'
    have hshift : ∀ i, i < n → (sector + 1) % DWORD_RANGE + i = sector + (i + 1) := by
      intro i hi; rw [DWORD_RANGE_eq] at hsec ⊢; omega
    refine ⟨m', ?_, ?_, ?_, ?_, ?_, ?_, hret.trans f5, hscr.trans f1,
      hpres.trans (f2.trans hp.symm), hout.trans f3, hdma.trans f6⟩
    · rw [hstep, hrun]; by_cases hn : n = 0 <;> simp [hn]
    · rw [hiss, f7, f1, List.range_succ_eq_map, List.append_assoc]
      congr 1
      simp only [List.map_cons, List.map_map, List.singleton_append, Nat.add_zero]
      congr 1
      apply List.map_congr_left
      intro i hi
      simp only [Function.comp, hshift i (List.mem_range.mp hi)]
    · rw [hcop, f8, f1, List.range_succ_eq_map, List.append_assoc]
      congr 1
      simp only [List.map_cons, List.map_map, List.singleton_append, Nat.mul_zero, Nat.add_zero]
      congr 1
      apply List.map_congr_left
      intro i _
      simp only [Function.comp, BLOCK_SIZE, Copy.mk.injEq, true_and]
      omega
    · intro c hc1 hc2
      unfold NoOverlap at hno
      rw [f1] at hmframe
      simp only [BLOCK_SIZE] at hno hc1 hc2 hcard hcframe hmframe ⊢
      by_cases hfirst : c < 512 * sector + 512
      · by_cases hn : n = 0
        · subst hn
          rw [hcframe c (by omega), f4 c, f9]
          have e1 : m.scratch + (c - 512 * sector) - m.scratch = c - 512 * sector := by omega
          have e2 : m.scratch + (c - 512 * sector) < m.scratch + 512 := by omega
          simp [hc1, hfirst, e1, e2]
        · have hs1 : (sector + 1) % DWORD_RANGE = sector + 1 := by
            rw [DWORD_RANGE_eq] at hsec ⊢; omega
          rw [hs1] at hcframe
          rw [hcframe c (by omega), f4 c, f9]
          have e1 : m.scratch + (c - 512 * sector) - m.scratch = c - 512 * sector := by omega
          have e2 : m.scratch + (c - 512 * sector) < m.scratch + 512 := by omega
          simp [hc1, hfirst, e1, e2]
      · have hn : n ≠ 0 := by intro h; subst h; omega
        have hs1 : (sector + 1) % DWORD_RANGE = sector + 1 := by
          rw [DWORD_RANGE_eq] at hsec ⊢; omega
        rw [hs1] at hcard
        rw [hcard c (by omega) (by omega), f9]
        have e1 : ¬ (m.scratch ≤ buff + 512 + (c - 512 * (sector + 1)) ∧
            buff + 512 + (c - 512 * (sector + 1)) < m.scratch + 512) := by omega
        have e2 : buff + 512 + (c - 512 * (sector + 1)) = buff + (c - 512 * sector) := by omega
        rw [if_neg e1, e2]
    · intro c hc
      simp only [BLOCK_SIZE] at hc hcframe ⊢
      by_cases hn : n = 0
      · subst hn
        rw [hcframe c (by omega), f4 c]
        have e1 : ¬ (512 * sector ≤ c ∧ c < 512 * sector + 512) := by omega
        rw [if_neg e1]
      · have hs1 : (sector + 1) % DWORD_RANGE = sector + 1 := by
          rw [DWORD_RANGE_eq] at hsec ⊢; omega
        rw [hs1] at hcframe
        rw [hcframe c (by omega), f4 c]
        have e1 : ¬ (512 * sector ≤ c ∧ c < 512 * sector + 512) := by omega
        rw [if_neg e1]
    · intro x hx
      rw [f1] at hmframe
      simp only [BLOCK_SIZE] at hx hmframe
      rw [hmframe x hx, f9, if_neg hx]

/-! ## Helper lemmas: the scratch relay when a transfer fails -/

theorem readRetry_frame (buff sector count : Nat) :
    ∀ (left : Nat) (m : Machine) (res0 : DRESULT),
      (readRetry left m buff sector count res0).2.card = m.card ∧
      (readRetry left m buff sector count res0).2.copied = m.copied ∧
      (readRetry left m buff sector count res0).2.scratch = m.scratch ∧
      (readRetry left m buff sector count res0).2.present = m.present ∧
      (readRetry left m buff sector count res0).2.SD_DMA_MODE = m.SD_DMA_MODE ∧
      (readRetry left m buff sector count res0).2.outcome = m.outcome ∧
      (∀ x, ¬ (buff ≤ x ∧ x < buff + BLOCK_SIZE * count) →
        (readRetry left m buff sector count res0).2.mem x = m.mem x) := by
  intro left
  induction left with
  | zero => intro m res0; simp [readRetry]
  | succ n ih =>
    intro m res0
    have hmem : ∀ x, ¬ (buff ≤ x ∧ x < buff + BLOCK_SIZE * count) →
        (sdReadTransfer m (readCall buff sector count) buff sector count).2.mem x = m.mem x := by
      intro x hx
      have hle := xferLen_le m.next count
      have : ¬ (buff ≤ x ∧ x < buff + xferLen m.next count) := by omega
      simp [sdReadTransfer, this]
    by_cases h : (readAttempt m buff sector count).1 = RES_OK
    · simp only [readRetry, h, if_true, readAttempt_snd]
      exact ⟨rfl, rfl, rfl, rfl, rfl, rfl, hmem⟩
    · simp only [readRetry, h, if_false, readAttempt_snd]
      obtain ⟨h1, h2, h3, h4, h5, h6, h7⟩ :=
        ih { (sdReadTransfer m (readCall buff sector count) buff sector count).2 with
              sdReadRetries :=
                ((sdReadTransfer m (readCall buff sector count) buff sector count).2.sdReadRetries
                  + 1) % DWORD_RANGE }
          (readAttempt m buff sector count).1
      exact ⟨h1, h2, h3, h4, h5, h6, fun x hx => (h7 x hx).trans (hmem x hx)⟩

theorem readRetry_ok_data (buff sector count : Nat) :
    ∀ (left : Nat) (m : Machine) (res0 : DRESULT),
      m.SD_DMA_MODE = true → res0 ≠ RES_OK →
      (readRetry left m buff sector count res0).1 = RES_OK →
      ∀ x, buff ≤ x → x < buff + BLOCK_SIZE * count →
        (readRetry left m buff sector count res0).2.mem x =
          m.card (BLOCK_SIZE * sector + (x - buff)) := by
  intro left
  induction left with
  | zero => intro m res0 _ h0 h; simp [readRetry] at h; exact absurd h h0
  | succ n ih =>
    intro m res0 hd _ hres x hx1 hx2
    by_cases h : (readAttempt m buff sector count).1 = RES_OK
    · have hok : m.next.ok = true := by
        rw [readAttempt_fst] at h
        by_contra hne
        simp [hd, hne] at h
      simp only [readRetry, h, if_true, readAttempt_snd]
      simp [sdReadTransfer, xferLen_ok _ _ hok, hx1, hx2]
    · obtain ⟨m1, hm1⟩ : ∃ m1 : Machine, m1 =
          { (sdReadTransfer m (readCall buff sector count) buff sector count).2 with
            sdReadRetries := (m.sdReadRetries + 1) % DWORD_RANGE } := ⟨_, rfl⟩
      have hstep : readRetry (n + 1) m buff sector count res0 =
          readRetry n m1 buff sector count (readAttempt m buff sector count).1 := by
        rw [hm1]; simp only [readRetry, h, if_false, readAttempt_snd]; rfl
      rw [hstep] at hres ⊢
      have hd1 : m1.SD_DMA_MODE = true := by rw [hm1]; exact hd
      have hc1 : m1.card = m.card := by rw [hm1]; rfl
      rw [← hc1]
      exact ih m1 _ hd1 h hres x hx1 hx2

theorem readRetry_first_ok_data (buff sector count left : Nat) (m : Machine) (res0 : DRESULT)
    (hd : m.SD_DMA_MODE = true)
    (hres : (readRetry (left + 1) m buff sector count res0).1 = RES_OK) :
    ∀ x, buff ≤ x → x < buff + BLOCK_SIZE * count →
      (readRetry (left + 1) m buff sector count res0).2.mem x =
        m.card (BLOCK_SIZE * sector + (x - buff)) := by
  intro x hx1 hx2
  by_cases h : (readAttempt m buff sector count).1 = RES_OK
  · have hok : m.next.ok = true := by
      rw [readAttempt_fst] at h
      by_contra hne
      simp [hd, hne] at h
    simp only [readRetry, h, if_true, readAttempt_snd]
    simp [sdReadTransfer, xferLen_ok _ _ hok, hx1, hx2]
  · obtain ⟨m1, hm1⟩ : ∃ m1 : Machine, m1 =
        { (sdReadTransfer m (readCall buff sector count) buff sector count).2 with
          sdReadRetries := (m.sdReadRetries + 1) % DWORD_RANGE } := ⟨_, rfl⟩
    have hstep : readRetry (left + 1) m buff sector count res0 =
        readRetry left m1 buff sector count (readAttempt m buff sector count).1 := by
      rw [hm1]; simp only [readRetry, h, if_false, readAttempt_snd]; rfl
    rw [hstep] at hres ⊢
    have hd1 : m1.SD_DMA_MODE = true := by rw [hm1]; exact hd
    have hc1 : m1.card = m.card := by rw [hm1]; rfl
    rw [← hc1]
    exact readRetry_ok_data buff sector count left m1 _ hd1 h hres x hx1 hx2

theorem readRelay_failure (d drv : Nat) :
    ∀ (n : Nat) (m : Machine) (buff sector : Nat) (res : DRESULT) (mr : Machine),
      m.present = true → badBuffer m.scratch = false → m.SD_DMA_MODE = true →
      NoOverlap buff (BLOCK_SIZE * n) m.scratch BLOCK_SIZE →
      sector + n ≤ DWORD_RANGE →
      readRelay (fun m1 s => disk_read (d + 1) m1 drv m1.scratch s 1) n m buff sector RES_OK =
        some (res, mr) →
      res ≠ RES_OK →
      ∃ k, k < n ∧
        mr.copied = m.copied ++
          (List.range k).map (fun i => { dst := buff + BLOCK_SIZE * i, src := m.scratch }) ∧
        (∀ x, buff ≤ x → x < buff + BLOCK_SIZE * k →
          mr.mem x = m.card (BLOCK_SIZE * sector + (x - buff))) ∧
        (∀ x, ¬ (buff ≤ x ∧ x < buff + BLOCK_SIZE * k) →
          ¬ (m.scratch ≤ x ∧ x < m.scratch + BLOCK_SIZE) → mr.mem x = m.mem x) := by
  intro n
  induction n with
  | zero =>
    intro m buff sector res mr _ _ _ _ _ hrun hne
    simp [readRelay] at hrun
    exact absurd hrun.1.symm hne
  | succ n ih =>
    intro m buff sector res mr hp hs hd hno hsec hrun hne
    obtain ⟨r, hr⟩ : ∃ r, r = readRetry 3 m m.scratch sector 1 RES_OK := ⟨_, rfl⟩
    have hnested : disk_read (d + 1) m drv m.scratch sector 1 = some r := by
      rw [hr, disk_read]; simp [hp, hs]
    obtain ⟨c1, c2, c3, c4, c5, c6, c7⟩ := readRetry_frame m.scratch sector 1 3 m RES_OK
    rw [← hr] at c1 c2 c3 c4 c5 c6 c7
    simp only [BLOCK_SIZE, Nat.mul_one] at c7
    by_cases hok : r.1 = RES_OK
    · obtain ⟨m2, hm2⟩ : ∃ m2 : Machine, m2 = memcpy r.2 buff r.2.scratch := ⟨_, rfl⟩
      have hdata := readRetry_first_ok_data m.scratch sector 1 2 m RES_OK hd (by rw [← hr]; exact hok)
      rw [← hr] at hdata
      simp only [BLOCK_SIZE, Nat.mul_one] at hdata
      have hstep :
          readRelay (fun m1 s => disk_read (d + 1) m1 drv m1.scratch s 1) (n + 1) m buff sector
            RES_OK =
          readRelay (fun m1 s => disk_read (d + 1) m1 drv m1.scratch s 1) n m2
            (buff + BLOCK_SIZE) ((sector + 1) % DWORD_RANGE) RES_OK := by
        rw [readRelay]
        simp only [hnested]
        obtain ⟨r1, r2⟩ := r
        simp only at hok
        subst hok
        simp [hm2]
      rw [hstep] at hrun
      have f1 : m2.scratch = m.scratch := by rw [hm2]; exact c3
      have f2 : m2.present = true := by rw [hm2]; exact c4.trans hp
      have f3 : m2.SD_DMA_MODE = true := by rw [hm2]; exact c5.trans hd
      have f4 : m2.card = m.card := by rw [hm2]; exact c1
      have f8 : m2.copied = m.copied ++ [{ dst := buff, src := m.scratch }] := by
        rw [hm2]; simp [memcpy, c2, c3]
      have f9 : ∀ x, m2.mem x =
          if buff ≤ x ∧ x < buff + 512 then r.2.mem (m.scratch + (x - buff))
          else r.2.mem x := by
        intro x; rw [hm2]; simp only [memcpy, BLOCK_SIZE, c3]
      have hno' : NoOverlap (buff + BLOCK_SIZE) (BLOCK_SIZE * n) m2.scratch BLOCK_SIZE := by
        rw [f1]; unfold NoOverlap BLOCK_SIZE at *; omega
      have hsec' : (sector + 1) % DWORD_RANGE + n ≤ DWORD_RANGE := by
        rw [DWORD_RANGE_eq] at hsec ⊢; omega
      obtain ⟨k, hk, hcop, hmem, hframe⟩ :=
        ih m2 (buff + BLOCK_SIZE) ((sector + 1) % DWORD_RANGE) res mr f2 (by rw [f1]; exact hs)
          f3 hno' hsec' hrun hne
      have hs1 : (sector + 1) % DWORD_RANGE = sector + 1 := by
        rw [DWORD_RANGE_eq] at hsec ⊢; omega
      rw [hs1, f4] at hmem
      rw [f1] at hframe hcop
      unfold NoOverlap at hno
      simp only [BLOCK_SIZE] at hmem hframe hno hcop ⊢
      refine ⟨k + 1, by omega, ?_, ?_, ?_⟩
      · rw [hcop, f8, List.range_succ_eq_map, List.append_assoc]
        congr 1
        simp only [List.map_cons, List.map_map, List.singleton_append, Nat.mul_zero,
          Nat.add_zero]
        congr 1
        apply List.map_congr_left
        intro i _
        simp only [Function.comp, Copy.mk.injEq, and_true]
        omega
      · intro x hx1 hx2
        by_cases hfirst : x < buff + 512
        · rw [hframe x (by omega) (by omega), f9 x, if_pos ⟨hx1, hfirst⟩,
            hdata (m.scratch + (x - buff)) (by omega) (by omega)]
          have e : m.scratch + (x - buff) - m.scratch = x - buff := by omega
          rw [e]
        · rw [hmem x (by omega) (by omega)]
          have e : 512 * (sector + 1) + (x - (buff + 512)) = 512 * sector + (x - buff) := by
            omega
          rw [e]
      · intro x hx1 hx2
        have h1 : ¬ (buff ≤ x ∧ x < buff + 512) := by omega
        rw [hframe x (by omega) hx2, f9 x, if_neg h1, c7 x hx2]
    · have hstep :
          readRelay (fun m1 s => disk_read (d + 1) m1 drv m1.scratch s 1) (n + 1) m buff sector
            RES_OK = some r := by
        rw [readRelay]
        simp only [hnested]
        obtain ⟨r1, r2⟩ := r
        simp only at hok
        simp [hok]
      rw [hstep] at hrun
      have hrm : r.2 = mr := by
        have := Option.some.inj hrun
        rw [this]
      rw [← hrm]
      refine ⟨0, by omega, by simp [c2], ?_, ?_⟩
      · intro x hx1 hx2; simp at hx2; omega
      · intro x _ hx2
        simp only [BLOCK_SIZE] at hx2
        exact c7 x hx2

/-! ## Helper lemmas: the trace of a relay -/

theorem readRetry_log (buff sector count : Nat) :
    ∀ (left : Nat) (m : Machine) (res0 : DRESULT),
      ∃ fails, fails ≤ left ∧
        (readRetry left m buff sector count res0).2.issued = m.issued ++
          List.replicate (if fails < left then fails + 1 else left)
            (readCall buff sector count) ∧
        (readRetry left m buff sector count res0).1 =
          (if fails < left then RES_OK else if left = 0 then res0 else RES_ERROR) ∧
        (readRetry left m buff sector count res0).2.sdReadRetries =
          (if fails = 0 then m.sdReadRetries
           else (m.sdReadRetries + fails) % DWORD_RANGE) := by
  intro left
  induction left with
  | zero =>
    intro m res0
    exact ⟨0, le_refl _, by simp [readRetry], by simp [readRetry], by simp [readRetry]⟩
  | succ n ih =>
    intro m res0
    by_cases h : (readAttempt m buff sector count).1 = RES_OK
    · refine ⟨0, Nat.zero_le _, ?_, ?_, ?_⟩
      · simp [readRetry, h, readAttempt_snd, sdReadTransfer]
      · simp [readRetry, h]
      · simp [readRetry, h, readAttempt_snd, sdReadTransfer]
    · have herr : (readAttempt m buff sector count).1 = RES_ERROR := by
        rw [readAttempt_fst] at h ⊢
        by_cases c : m.SD_DMA_MODE = true ∧ m.next.ok = false
        · rw [if_pos c]
        · rw [if_neg c] at h; exact absurd rfl h
      obtain ⟨m1, hm1⟩ : ∃ m1 : Machine, m1 =
          { (sdReadTransfer m (readCall buff sector count) buff sector count).2 with
            sdReadRetries := (m.sdReadRetries + 1) % DWORD_RANGE } := ⟨_, rfl⟩
      have hstep : readRetry (n + 1) m buff sector count res0 =
          readRetry n m1 buff sector count (readAttempt m buff sector count).1 := by
        rw [hm1]; simp only [readRetry, h, if_false, readAttempt_snd]; rfl
      rw [herr] at hstep
      have e1 : m1.issued = m.issued ++ [readCall buff sector count] := by rw [hm1]; rfl
      have e3 : m1.sdReadRetries = (m.sdReadRetries + 1) % DWORD_RANGE := by rw [hm1]
      obtain ⟨f, hle, hiss, hres, hcnt⟩ := ih m1 RES_ERROR
      refine ⟨f + 1, by omega, ?_, ?_, ?_⟩
      · rw [hstep, hiss, e1]
        by_cases hfn : f < n
        · simp [hfn, List.replicate_succ]
        · simp [hfn, List.replicate_succ]
      · rw [hstep, hres]
        by_cases hfn : f < n
        · simp [hfn]
        · by_cases hn : n = 0 <;> simp [hfn, hn]
      · rw [hstep, hcnt, e3]
        have hne : ¬ (f + 1 = 0) := by omega
        rw [if_neg hne]
        by_cases hf0 : f = 0
        · subst hf0; simp
        · rw [if_neg hf0, DWORD_RANGE_eq]; omega

theorem subTransferLog_append (call : Nat → Transfer) :
    ∀ (fs : List Nat) (first f : Nat),
      subTransferLog call first (fs ++ [f]) =
        subTransferLog call first fs ++ List.replicate (f + 1) (call (first + fs.length)) := by
  intro fs
  induction fs with
  | nil => intro first f; simp [subTransferLog]
  | cons g gs ih =>
    intro first f
    have e : first + 1 + gs.length = first + (gs.length + 1) := by omega
    have h := ih (first + 1) f
    rw [e] at h
    show List.replicate (g + 1) (call first) ++ subTransferLog call (first + 1) (gs ++ [f]) = _
    rw [h]
    simp only [subTransferLog, List.length_cons, List.append_assoc]

theorem readRelay_trace (rd : Machine → Nat → Option (DRESULT × Machine)) :
    ∀ (k n : Nat) (m : Machine) (buff sector : Nat) (res0 : DRESULT) (ms : Nat → Machine)
      (res : DRESULT) (mr : Machine),
      k < n → ms 0 = m → sector + n ≤ DWORD_RANGE →
      (∀ i, i < k → ∃ mi, rd (ms i) (sector + i) = some (RES_OK, mi) ∧
        ms (i + 1) = memcpy mi (buff + BLOCK_SIZE * i) mi.scratch) →
      rd (ms k) (sector + k) = some (res, mr) → res ≠ RES_OK →
      readRelay rd n m buff sector res0 = some (res, mr) := by
  intro k
  induction k with
  | zero =>
    intro n m buff sector res0 ms res mr hk h0 _ _ hat hne
    obtain ⟨n1, rfl⟩ : ∃ n1, n = n1 + 1 := ⟨n - 1, by omega⟩
    rw [h0] at hat
    simp only [Nat.add_zero] at hat
    simp [readRelay, hat, hne]
  | succ k ih =>
    intro n m buff sector res0 ms res mr hk h0 hsec hbefore hat hne
    obtain ⟨n1, rfl⟩ : ∃ n1, n = n1 + 1 := ⟨n - 1, by omega⟩
    obtain ⟨m0, hm0, hnext⟩ := hbefore 0 (by omega)
    rw [h0] at hm0
    simp only [Nat.add_zero, Nat.mul_zero, Nat.zero_add] at hm0 hnext
    have hs1 : (sector + 1) % DWORD_RANGE = sector + 1 := by
      rw [DWORD_RANGE_eq] at hsec ⊢; omega
    have hstep : readRelay rd (n1 + 1) m buff sector res0 =
        readRelay rd n1 (ms 1) (buff + BLOCK_SIZE) (sector + 1) RES_OK := by
      rw [readRelay]; simp only [hm0]; simp [hnext, hs1]
    rw [hstep]
    apply ih n1 (ms 1) (buff + BLOCK_SIZE) (sector + 1) RES_OK (fun i => ms (i + 1)) res mr
      (by omega) rfl (by omega)
    · intro i hi
      obtain ⟨mi, h1, h2⟩ := hbefore (i + 1) (by omega)
      refine ⟨mi, ?_, ?_⟩
      · have e : sector + 1 + i = sector + (i + 1) := by omega
        rw [e]; exact h1
      · have e : buff + BLOCK_SIZE + BLOCK_SIZE * i = buff + BLOCK_SIZE * (i + 1) := by
          unfold BLOCK_SIZE; omega
        rw [e]; exact h2
    · have e : sector + 1 + k = sector + (k + 1) := by omega
      rw [e]; exact hat
    · exact hne

theorem writeRelay_trace (wr : Machine → Nat → Option (DRESULT × Machine)) :
    ∀ (k n : Nat) (m : Machine) (buff sector : Nat) (res0 : DRESULT) (ms : Nat → Machine)
      (res : DRESULT) (mw : Machine),
      k < n → ms 0 = m → sector + n ≤ DWORD_RANGE →
      (∀ i, i < k → wr (memcpy (ms i) (ms i).scratch (buff + BLOCK_SIZE * i)) (sector + i) =
        some (RES_OK, ms (i + 1))) →
      wr (memcpy (ms k) (ms k).scratch (buff + BLOCK_SIZE * k)) (sector + k) = some (res, mw) →
      res ≠ RES_OK →
      writeRelay wr n m buff sector res0 = some (res, mw) := by
  intro k
  induction k with
  | zero =>
    intro n m buff sector res0 ms res mw hk h0 _ _ hat hne
    obtain ⟨n1, rfl⟩ : ∃ n1, n = n1 + 1 := ⟨n - 1, by omega⟩
    rw [h0] at hat
    simp only [Nat.add_zero, Nat.mul_zero] at hat
    simp [writeRelay, hat, hne]
  | succ k ih =>
    intro n m buff sector res0 ms res mw hk h0 hsec hbefore hat hne
    obtain ⟨n1, rfl⟩ : ∃ n1, n = n1 + 1 := ⟨n - 1, by omega⟩
    have hm0 := hbefore 0 (by omega)
    rw [h0] at hm0
    simp only [Nat.add_zero, Nat.mul_zero, Nat.zero_add] at hm0
    have hs1 : (sector + 1) % DWORD_RANGE = sector + 1 := by
      rw [DWORD_RANGE_eq] at hsec ⊢; omega
    have hstep : writeRelay wr (n1 + 1) m buff sector res0 =
        writeRelay wr n1 (ms 1) (buff + BLOCK_SIZE) (sector + 1) RES_OK := by
      rw [writeRelay]; simp only [hm0]; simp [hs1]
    rw [hstep]
    apply ih n1 (ms 1) (buff + BLOCK_SIZE) (sector + 1) RES_OK (fun i => ms (i + 1)) res mw
      (by omega) rfl (by omega)
    · intro i hi
      have h1 := hbefore (i + 1) (by omega)
      have e : sector + 1 + i = sector + (i + 1) := by omega
      have e2 : buff + BLOCK_SIZE + BLOCK_SIZE * i = buff + BLOCK_SIZE * (i + 1) := by
        unfold BLOCK_SIZE; omega
      rw [e, e2]; exact h1
    · have e : sector + 1 + k = sector + (k + 1) := by omega
      have e2 : buff + BLOCK_SIZE + BLOCK_SIZE * k = buff + BLOCK_SIZE * (k + 1) := by
        unfold BLOCK_SIZE; omega
      rw [e, e2]; exact hat
    · exact hne

theorem disk_read_direct (m : Machine) (d drv buff sector count : Nat)
    (hp : m.present = true) (hb : badBuffer buff = false) :
    disk_read (d + 1) m drv buff sector count =
      some (readRetry 3 m buff sector count RES_OK) := by
  rw [disk_read]; simp [hp, hb]

theorem readTrace_log (d drv buff sector : Nat) (ms : Nat → Machine)
    (hp : (ms 0).present = true) (hs : badBuffer (ms 0).scratch = false)
    (hr : (ms 0).sdReadRetries < DWORD_RANGE) :
    ∀ k, (∀ i, i < k → ∃ mi,
        disk_read (d + 1) (ms i) drv (ms i).scratch (sector + i) 1 = some (RES_OK, mi) ∧
        ms (i + 1) = memcpy mi (buff + BLOCK_SIZE * i) mi.scratch) →
      ∃ fs : List Nat, fs.length = k ∧ (∀ f ∈ fs, f < 3) ∧
        (ms k).issued = (ms 0).issued ++
          subTransferLog (Transfer.SD_ReadBlock (ms 0).scratch) sector fs ∧
        (ms k).sdReadRetries = ((ms 0).sdReadRetries + fs.sum) % DWORD_RANGE ∧
        (ms k).scratch = (ms 0).scratch ∧ (ms k).present = true := by
  intro k
  induction k with
  | zero =>
    intro _
    exact ⟨[], rfl, by simp, by simp [subTransferLog], by simp [Nat.mod_eq_of_lt hr], rfl, hp⟩
  | succ k ih =>
    intro hb
    obtain ⟨fs, hlen, hall, hiss, hcnt, hsc, hpr⟩ := ih (fun i hi => hb i (by omega))
    obtain ⟨mi, hcall, hnext⟩ := hb k (by omega)
    rw [disk_read_direct (ms k) d drv (ms k).scratch (sector + k) 1 hpr (by rw [hsc]; exact hs)]
      at hcall
    have hcall1 := Option.some.inj hcall
    obtain ⟨fails, _, liss, lres, lcnt⟩ :=
      readRetry_log (ms k).scratch (sector + k) 1 3 (ms k) RES_OK
    obtain ⟨_, _, c3, c4, _, _, _⟩ := readRetry_frame (ms k).scratch (sector + k) 1 3 (ms k) RES_OK
    rw [hcall1] at liss lres lcnt c3 c4
    simp only at liss lres lcnt c3 c4
    have hf : fails < 3 := by
      by_contra hc
      simp [hc] at lres
    rw [if_pos hf] at liss
    have i1 : (ms (k + 1)).issued = mi.issued := by rw [hnext]; rfl
    have i2 : (ms (k + 1)).sdReadRetries = mi.sdReadRetries := by rw [hnext]; rfl
    have i3 : (ms (k + 1)).scratch = mi.scratch := by rw [hnext]; rfl
    have i4 : (ms (k + 1)).present = mi.present := by rw [hnext]; rfl
    refine ⟨fs ++ [fails], by simp [hlen], ?_, ?_, ?_, ?_, ?_⟩
    · intro f hmem
      rcases List.mem_append.mp hmem with h | h
      · exact hall f h
      · have : f = fails := by simpa using h
        omega
    · rw [i1, liss, hiss, subTransferLog_append, hlen, hsc, List.append_assoc]
      simp [readCall]
    · rw [i2, lcnt, hcnt, List.sum_append]
      simp only [List.sum_cons, List.sum_nil, Nat.add_zero]
      by_cases hf0 : fails = 0
      · subst hf0; simp
      · rw [if_neg hf0, DWORD_RANGE_eq]; omega
    · rw [i3, c3, hsc]
    · rw [i4, c4, hpr]

theorem writeTrace_log (d drv buff sector : Nat) (ms : Nat → Machine)
    (hp : (ms 0).present = true) (hs : badBuffer (ms 0).scratch = false) :
    ∀ k, (∀ i, i < k →
        disk_write (d + 1) (memcpy (ms i) (ms i).scratch (buff + BLOCK_SIZE * i)) drv
          (ms i).scratch (sector + i) 1 = some (RES_OK, ms (i + 1))) →
      (ms k).issued = (ms 0).issued ++
        (List.range k).map (fun i => Transfer.SD_WriteBlock (ms 0).scratch (sector + i)) ∧
      (ms k).copied = (ms 0).copied ++
        (List.range k).map
          (fun i => { dst := (ms 0).scratch, src := buff + BLOCK_SIZE * i }) ∧
      (ms k).sdReadRetries = (ms 0).sdReadRetries ∧
      (ms k).scratch = (ms 0).scratch ∧ (ms k).present = true := by
  intro k
  induction k with
  | zero => intro _; exact ⟨by simp, by simp, rfl, rfl, hp⟩
  | succ k ih =>
    intro hb
    obtain ⟨hiss, hcop, hcnt, hsc, hpr⟩ := ih (fun i hi => hb i (by omega))
    have hcall := hb k (by omega)
    rw [disk_write_direct (memcpy (ms k) (ms k).scratch (buff + BLOCK_SIZE * k)) d drv
      (ms k).scratch (sector + k) 1 hpr (by rw [hsc]; exact hs)] at hcall
    have hcall1 := (Prod.mk.inj (Option.some.inj hcall)).2
    refine ⟨?_, ?_, ?_, ?_, ?_⟩
    · rw [← hcall1, List.range_succ, List.map_append]
      simp [sdWriteTransfer, memcpy, writeCall, hiss, hsc]
    · rw [← hcall1, List.range_succ, List.map_append]
      simp [sdWriteTransfer, memcpy, hcop, hsc]
    · rw [← hcall1]; exact hcnt
    · rw [← hcall1]; exact hsc
    · rw [← hcall1]; exact hpr

/-! ## Helper lemmas: the nesting depth of a relay -/

theorem readRelay_fuel (d drv : Nat) :
    ∀ (n : Nat) (m : Machine) (buff sector : Nat),
      m.present = true → badBuffer m.scratch = false →
      ∃ res mr,
        readRelay (fun m1 s => disk_read (d + 1) m1 drv m1.scratch s 1) n m buff sector
          RES_OK = some (res, mr) ∧
        readRelay (fun m1 s => disk_read 1 m1 drv m1.scratch s 1) n m buff sector
          RES_OK = some (res, mr) ∧
        mr.copied.length + (if res = RES_OK then 0 else 1) ≤ m.copied.length + n ∧
        (res = RES_OK → mr.copied.length = m.copied.length + n) ∧
        mr.issued.length ≤ m.issued.length + 3 * n := by
  intro n
  induction n with
  | zero =>
    intro m buff sector _ _
    exact ⟨RES_OK, m, rfl, rfl, by simp, by simp, by simp⟩
  | succ n ih =>
    intro m buff sector hp hs
    obtain ⟨r, hr⟩ : ∃ r, r = readRetry 3 m m.scratch sector 1 RES_OK := ⟨_, rfl⟩
    have hn1 : disk_read (d + 1) m drv m.scratch sector 1 = some r := by
      rw [hr]; exact disk_read_direct m d drv m.scratch sector 1 hp hs
    have hn0 : disk_read 1 m drv m.scratch sector 1 = some r := by
      rw [hr]; exact disk_read_direct m 0 drv m.scratch sector 1 hp hs
    obtain ⟨_, c2, c3, c4, _, _, _⟩ := readRetry_frame m.scratch sector 1 3 m RES_OK
    obtain ⟨fails, hle, liss, _, _⟩ := readRetry_log m.scratch sector 1 3 m RES_OK
    rw [← hr] at c2 c3 c4 liss
    have hlen : r.2.issued.length ≤ m.issued.length + 3 := by
      rw [liss, List.length_append, List.length_replicate]
      split <;> omega
    by_cases hok : r.1 = RES_OK
    · obtain ⟨m2, hm2⟩ : ∃ m2 : Machine, m2 = memcpy r.2 buff r.2.scratch := ⟨_, rfl⟩
      have hstep1 :
          readRelay (fun m1 s => disk_read (d + 1) m1 drv m1.scratch s 1) (n + 1) m buff sector
            RES_OK =
          readRelay (fun m1 s => disk_read (d + 1) m1 drv m1.scratch s 1) n m2
            (buff + BLOCK_SIZE) ((sector + 1) % DWORD_RANGE) RES_OK := by
        rw [readRelay]
        simp only [hn1]
        obtain ⟨r1, r2⟩ := r
        simp only at hok
        subst hok
        simp [hm2]
      have hstep0 :
          readRelay (fun m1 s => disk_read 1 m1 drv m1.scratch s 1) (n + 1) m buff sector
            RES_OK =
          readRelay (fun m1 s => disk_read 1 m1 drv m1.scratch s 1) n m2
            (buff + BLOCK_SIZE) ((sector + 1) % DWORD_RANGE) RES_OK := by
        rw [readRelay]
        simp only [hn0]
        obtain ⟨r1, r2⟩ := r
        simp only at hok
        subst hok
        simp [hm2]
      have f1 : m2.scratch = m.scratch := by rw [hm2]; exact c3
      have f2 : m2.present = true := by rw [hm2]; exact c4.trans hp
      have f3 : m2.copied.length = m.copied.length + 1 := by
        rw [hm2]; simp [memcpy, c2]
      have f4 : m2.issued = r.2.issued := by rw [hm2]; rfl
      obtain ⟨res, mr, h1, h0, hc, hce, hi⟩ :=
        ih m2 (buff + BLOCK_SIZE) ((sector + 1) % DWORD_RANGE) f2 (by rw [f1]; exact hs)
      rw [f4] at hi
      refine ⟨res, mr, by rw [hstep1]; exact h1, by rw [hstep0]; exact h0, ?_, ?_, ?_⟩
      · omega
      · intro h; have := hce h; omega
      · omega
    · have hstep1 :
          readRelay (fun m1 s => disk_read (d + 1) m1 drv m1.scratch s 1) (n + 1) m buff sector
            RES_OK = some (r.1, r.2) := by
        rw [readRelay]
        simp only [hn1]
        obtain ⟨r1, r2⟩ := r
        simp only at hok
        simp [hok]
      have hstep0 :
          readRelay (fun m1 s => disk_read 1 m1 drv m1.scratch s 1) (n + 1) m buff sector
            RES_OK = some (r.1, r.2) := by
        rw [readRelay]
        simp only [hn0]
        obtain ⟨r1, r2⟩ := r
        simp only at hok
        simp [hok]
      refine ⟨r.1, r.2, hstep1, hstep0, ?_, ?_, ?_⟩
      · rw [if_neg hok, c2]; omega
      · intro h; exact absurd h hok
      · omega

theorem writeRelay_fuel (d drv : Nat) :
    ∀ (n : Nat) (m : Machine) (buff sector : Nat),
      m.present = true → badBuffer m.scratch = false →
      ∃ res mw,
        writeRelay (fun m1 s => disk_write (d + 1) m1 drv m1.scratch s 1) n m buff sector
          RES_OK = some (res, mw) ∧
        writeRelay (fun m1 s => disk_write 1 m1 drv m1.scratch s 1) n m buff sector
          RES_OK = some (res, mw) ∧
        mw.copied.length ≤ m.copied.length + n ∧
        (res = RES_OK → mw.copied.length = m.copied.length + n) ∧
        mw.issued.length + m.copied.length = m.issued.length + mw.copied.length := by
  intro n
  induction n with
  | zero =>
    intro m buff sector _ _
    exact ⟨RES_OK, m, rfl, rfl, by simp, by simp, by omega⟩
  | succ n ih =>
    intro m buff sector hp hs
    obtain ⟨m1, hm1⟩ : ∃ m1 : Machine, m1 = memcpy m m.scratch buff := ⟨_, rfl⟩
    have g1 : m1.scratch = m.scratch := by rw [hm1]; rfl
    have g2 : m1.present = true := by rw [hm1]; exact hp
    have g3 : m1.copied.length = m.copied.length + 1 := by rw [hm1]; simp [memcpy]
    have g4 : m1.issued = m.issued := by rw [hm1]; rfl
    obtain ⟨r, hr⟩ : ∃ r : DRESULT × Machine, r =
        (if m1.next.ok = true then RES_OK else RES_ERROR,
          (sdWriteTransfer m1 (writeCall m1.scratch sector 1) m1.scratch sector 1).2) :=
      ⟨_, rfl⟩
    have hs1 : badBuffer m1.scratch = false := by rw [g1]; exact hs
    have hn1 : disk_write (d + 1) m1 drv m1.scratch sector 1 = some r := by
      rw [hr]; exact disk_write_direct m1 d drv m1.scratch sector 1 g2 hs1
    have hn0 : disk_write 1 m1 drv m1.scratch sector 1 = some r := by
      rw [hr]; exact disk_write_direct m1 0 drv m1.scratch sector 1 g2 hs1
    have c1 : r.2.scratch = m.scratch := by rw [hr]; exact g1
    have c2 : r.2.present = true := by rw [hr]; exact g2
    have c3 : r.2.copied.length = m.copied.length + 1 := by rw [hr]; exact g3
    have c4 : r.2.issued.length = m.issued.length + 1 := by
      rw [hr]; simp [sdWriteTransfer, g4]
    by_cases hok : r.1 = RES_OK
    · have hstep1 :
          writeRelay (fun m1 s => disk_write (d + 1) m1 drv m1.scratch s 1) (n + 1) m buff
            sector RES_OK =
          writeRelay (fun m1 s => disk_write (d + 1) m1 drv m1.scratch s 1) n r.2
            (buff + BLOCK_SIZE) ((sector + 1) % DWORD_RANGE) RES_OK := by
        rw [writeRelay, ← hm1]
        simp only [hn1]
        obtain ⟨r1, r2⟩ := r
        simp only at hok
        subst hok
        simp
      have hstep0 :
          writeRelay (fun m1 s => disk_write 1 m1 drv m1.scratch s 1) (n + 1) m buff
            sector RES_OK =
          writeRelay (fun m1 s => disk_write 1 m1 drv m1.scratch s 1) n r.2
            (buff + BLOCK_SIZE) ((sector + 1) % DWORD_RANGE) RES_OK := by
        rw [writeRelay, ← hm1]
        simp only [hn0]
        obtain ⟨r1, r2⟩ := r
        simp only at hok
        subst hok
        simp
      obtain ⟨res, mw, h1, h0, hc, hce, hi⟩ :=
        ih r.2 (buff + BLOCK_SIZE) ((sector + 1) % DWORD_RANGE) c2 (by rw [c1]; exact hs)
      refine ⟨res, mw, by rw [hstep1]; exact h1, by rw [hstep0]; exact h0, ?_, ?_, ?_⟩
      · omega
      · intro h; have := hce h; omega
      · omega
    · have hstep1 :
          writeRelay (fun m1 s => disk_write (d + 1) m1 drv m1.scratch s 1) (n + 1) m buff
            sector RES_OK = some (r.1, r.2) := by
        rw [writeRelay, ← hm1]
        simp only [hn1]
        obtain ⟨r1, r2⟩ := r
        simp only at hok
        simp [hok]
      have hstep0 :
          writeRelay (fun m1 s => disk_write 1 m1 drv m1.scratch s 1) (n + 1) m buff
            sector RES_OK = some (r.1, r.2) := by
        rw [writeRelay, ← hm1]
        simp only [hn0]
        obtain ⟨r1, r2⟩ := r
        simp only at hok
        simp [hok]
      refine ⟨r.1, r.2, hstep1, hstep0, ?_, ?_, ?_⟩
      · omega
      · intro h; exact absurd h hok
      · omega

/-! ## Helper lemmas: the lock counters -/

theorem FsState.run_append (s : FsState) (a b : List FsEvent) :
    s.run (a ++ b) = (s.run a).bind (fun s1 => s1.run b) := by
  induction a generalizing s with
  | nil => simp [FsState.run]
  | cons e es ih =>
    simp only [List.cons_append, FsState.run]
    cases h : s.step e with
    | none => simp
    | some s1 => simp [ih]

theorem completedOps_run (k : Nat) :
    FsState.boot.run (completedOps k) =
      some { locks := { ioMutexReq := k % DWORD_RANGE, ioMutexRel := k % DWORD_RANGE },
             pending := 0 } := by
  induction k with
  | zero => simp [completedOps, FsState.run, FsState.boot, Locks.boot]
  | succ n ih =>
    rw [completedOps, FsState.run_append, ih]
    simp only [Option.bind, FsState.run, FsState.step, ff_req_grant, ff_rel_grant,
      DWORD_RANGE_eq]
    simp only [Nat.zero_add, Nat.add_sub_cancel, one_ne_zero, if_false, Option.some.injEq,
      FsState.mk.injEq, Locks.mk.injEq, and_true]
    omega

theorem lock_counts (es : List FsEvent) :
    ∀ (s0 s : FsState) (R L : Nat), s0.run es = some s →
      s0.locks.ioMutexReq = R % DWORD_RANGE → s0.locks.ioMutexRel = L % DWORD_RANGE →
      s0.pending + L = R →
      s.locks.ioMutexReq = (R + es.countP FsEvent.isEnter) % DWORD_RANGE ∧
      s.locks.ioMutexRel = (L + es.countP FsEvent.isLeave) % DWORD_RANGE ∧
      s.pending + (L + es.countP FsEvent.isLeave) = R + es.countP FsEvent.isEnter := by
  induction es with
  | nil =>
    intro s0 s R L h h1 h2 h3
    simp only [FsState.run, Option.some.injEq] at h
    subst h
    simp [h1, h2, h3]
  | cons e es ih =>
    intro s0 s R L h h1 h2 h3
    cases e with
    | enter st =>
      simp only [FsState.run, FsState.step] at h
      have := ih _ s (R + 1) L h
        (by simp only [ff_req_grant, h1, DWORD_RANGE_eq]; omega)
        (by simp only [ff_req_grant, h2])
        (by simp only []; omega)
      simp only [List.countP_cons, FsEvent.isEnter, FsEvent.isLeave, if_true] at this ⊢
      simp only [Bool.false_eq_true, if_false, Nat.add_zero] at this ⊢
      obtain ⟨a, b, c⟩ := this
      exact ⟨by rw [a]; congr 1; omega, b, by omega⟩
    | leave =>
      simp only [FsState.run, FsState.step] at h
      by_cases hp : s0.pending = 0
      · simp [hp] at h
      · simp only [hp, if_false] at h
        have := ih _ s R (L + 1) h
          (by simp only [ff_rel_grant, h1])
          (by simp only [ff_rel_grant, h2, DWORD_RANGE_eq]; omega)
          (by simp only []; omega)
        simp only [List.countP_cons, FsEvent.isEnter, FsEvent.isLeave, if_true] at this ⊢
        simp only [Bool.false_eq_true, if_false, Nat.add_zero] at this ⊢
        obtain ⟨a, b, c⟩ := this
        exact ⟨a, by rw [b]; congr 1; omega, by omega⟩

/-! ## Helper lemmas: `disk_ioctl` and the command line -/

theorem syncPolls_count (a : Attempt) (left i : Nat) (h : i + left = a.busy) :
    syncPolls a left i = a.busy + 1 := by
  induction left generalizing i with
  | zero => simp only [syncPolls]; omega
  | succ n ih =>
    have hlt : i < a.busy := by omega
    simp [syncPolls, SD_GetStatus, hlt, ih (i + 1) (by omega)]

theorem loadDWORD_storeDWORD (mem : Nat → Nat) (buff v : Nat) (hv : v < DWORD_RANGE) :
    loadDWORD (storeDWORD mem buff v) buff = v := by
  rw [DWORD_RANGE_eq] at hv
  simp only [loadDWORD, storeDWORD]
  have e1 : ¬ (buff + 1 = buff) := by omega
  have e2 : ¬ (buff + 2 = buff) := by omega
  have e3 : ¬ (buff + 2 = buff + 1) := by omega
  have e4 : ¬ (buff + 3 = buff) := by omega
  have e5 : ¬ (buff + 3 = buff + 1) := by omega
  have e6 : ¬ (buff + 3 = buff + 2) := by omega
  simp only [if_true, if_false, e1, e2, e3, e4, e5, e6]
  omega

theorem loadWORD_storeWORD (mem : Nat → Nat) (buff v : Nat) (hv : v < 2 ^ 16) :
    loadWORD (storeWORD mem buff v) buff = v := by
  norm_num at hv
  simp only [loadWORD, storeWORD]
  have e1 : ¬ (buff + 1 = buff) := by omega
  simp only [if_true, if_false, e1]
  omega

theorem disk_read_zero_count (m : Machine) (depth buffer startSector : Nat)
    (hp : m.present = true) (hff : FaultFree m) :
    ∃ m1, disk_read (depth + 1) m 0 buffer startSector 0 = some (RES_OK, m1) ∧
      m1.present = true ∧ FaultFree m1 := by
  by_cases hb : badBuffer buffer = true
  · exact ⟨m, by rw [disk_read_relay m depth 0 buffer startSector 0 hp hb]; rfl, hp, hff⟩
  · have hb1 : badBuffer buffer = false := by simpa using hb
    exact ⟨_, disk_read_direct_faultFree m depth 0 buffer startSector 0 hp hb1 hff, hp,
      fun k => hff k⟩

theorem cliReadSDLoop_zero_buffer (depth buffer startSector : Nat) :
    ∀ (loops : Nat) (m : Machine) (numberOfSectors : Int),
      m.present = true → FaultFree m → numberOfSectors > 0 →
      cliReadSDLoop (depth + 1) buffer startSector 0 loops m numberOfSectors = none := by
  intro loops
  induction loops with
  | zero => intro m n _ _ _; rfl
  | succ k ih =>
    intro m n hp hff hn
    by_cases hb : badBuffer buffer = true
    · have hr : disk_read (depth + 1) m 0 buffer startSector 0 = some (RES_OK, m) := by
        rw [disk_read_relay m depth 0 buffer startSector 0 hp hb]; rfl
      have hge : n ≥ 0 := by omega
      simp only [cliReadSDLoop, hn, if_true, Int.toNat_zero, hr]
      simpa [hge] using ih m n hp hff hn
    · have hb' : badBuffer buffer = false := by simpa using hb
      have hr := disk_read_direct_faultFree m depth 0 buffer startSector 0 hp hb' hff
      have hge : n ≥ 0 := by omega
      simp only [cliReadSDLoop, hn, if_true, Int.toNat_zero, hr]
      have := ih (sdReadTransfer m (readCall buffer startSector 0) buffer startSector 0).2 n
        hp (fun k => hff k) hn
      simpa [hge] using this

/-! ## Claims -/

/-- C1: with the card absent, `disk_read` and `disk_write` return `RES_NOTRDY` and leave the
whole machine as it was: no transfer is issued, `sdReadRetries`, RAM (the caller's buffer and
the scratch sector) and the medium are untouched. -/
theorem disk_rw_absent (m : Machine) (depth drv buff sector count : Nat)
    (h : m.present = false) :
    disk_read (depth + 1) m drv buff sector count = some (RES_NOTRDY, m) ∧
    disk_write (depth + 1) m drv buff sector count = some (RES_NOTRDY, m) := by
  simp [disk_read, disk_write, h]

/-- C2: a direct-path `disk_read` (card present, buffer at or above `0x20000000` and 4-byte
aligned, `SD_DMA_MODE` build) returns, whatever the controller answers.  With `fails` the
number of failed attempts: `fails ≤ 3`, the attempts before number `fails` all failed and,
when `fails < 3`, attempt number `fails` succeeded; exactly `fails + 1` transfers (3 when
`fails = 3`) were issued, all the same call; the result is `RES_OK` exactly when one of the
first three attempts succeeds and `RES_ERROR` otherwise; `sdReadRetries` has grown by
`fails` (as a `uint32_t`).  In particular three failures give `RES_ERROR`, exactly three
transfers and `sdReadRetries + 3`. -/
theorem disk_read_direct_retry (m : Machine) (depth drv buff sector count : Nat)
    (hp : m.present = true) (hb : badBuffer buff = false) (hd : m.SD_DMA_MODE = true)
    (hr : m.sdReadRetries < DWORD_RANGE) :
    ∃ (res : DRESULT) (m' : Machine) (fails : Nat),
      disk_read (depth + 1) m drv buff sector count = some (res, m') ∧
      fails ≤ 3 ∧
      (∀ i, i < fails → (m.outcome (m.issued.length + i)).ok = false) ∧
      (fails < 3 → (m.outcome (m.issued.length + fails)).ok = true) ∧
      m'.issued = m.issued ++
        List.replicate (if fails < 3 then fails + 1 else 3) (readCall buff sector count) ∧
      (res = RES_OK ↔ ∃ i, i < 3 ∧ (m.outcome (m.issued.length + i)).ok = true) ∧
      (res ≠ RES_OK → res = RES_ERROR) ∧
      m'.sdReadRetries = (m.sdReadRetries + fails) % DWORD_RANGE ∧
      ((∀ i, i < 3 → (m.outcome (m.issued.length + i)).ok = false) →
        res = RES_ERROR ∧
        m'.issued = m.issued ++ List.replicate 3 (readCall buff sector count) ∧
        m'.sdReadRetries = (m.sdReadRetries + 3) % DWORD_RANGE) := by
  obtain ⟨fails, hle, hbefore, hat, hiss, hres, hcnt⟩ :=
    readRetry_spec 3 m buff sector count RES_OK hd hr
  refine ⟨(readRetry 3 m buff sector count RES_OK).1, (readRetry 3 m buff sector count RES_OK).2,
    fails, ?_, hle, hbefore, hat, hiss, ?_, ?_, hcnt, ?_⟩
  · simp [disk_read, hp, hb]
  · rw [hres]
    constructor
    · intro h
      by_cases hf : fails < 3
      · exact ⟨fails, hf, hat hf⟩
      · simp [hf] at h
    · rintro ⟨i, hi, hok⟩
      by_cases hf : fails < 3
      · simp [hf]
      · have := hbefore i (by omega)
        simp [this] at hok
  · rw [hres]
    by_cases hf : fails < 3 <;> simp [hf]
  · intro hall
    have hf : fails = 3 := by
      by_contra hne
      have hlt : fails < 3 := by omega
      have := hall fails hlt
      simp [hat hlt] at this
    subst hf
    refine ⟨?_, ?_, hcnt⟩
    · rw [hres]; simp
    · simpa using hiss

/-- C1 at a concrete machine: the card is absent, a three-sector read and write at sector 9
into the buffer at `0x20001000`. -/
theorem disk_rw_absent_witness :
    emptyBoard.present = false ∧
    disk_read 1 emptyBoard 0 0x20001000 9 3 =
      some (RES_NOTRDY, emptyBoard) ∧
    disk_write 1 emptyBoard 0 0x20001000 9 3 =
      some (RES_NOTRDY, emptyBoard) :=
  ⟨rfl, disk_rw_absent emptyBoard 0 0 0x20001000 9 3 rfl⟩

/-- C2 at a concrete machine: every attempt fails; a four-sector read at sector 100 into the
aligned buffer at `0x20001000` returns `RES_ERROR` after exactly three multi-block transfers
and leaves `sdReadRetries = 3`. -/
theorem disk_read_direct_retry_witness :
    (∃ (res : DRESULT) (m' : Machine) (fails : Nat),
      disk_read 1 deadBoard 0 0x20001000 100 4 =
        some (res, m') ∧
      fails ≤ 3 ∧
      (∀ i, i < fails → (deadBoard.outcome
        (deadBoard.issued.length + i)).ok = false) ∧
      (fails < 3 → (deadBoard.outcome
        (deadBoard.issued.length + fails)).ok = true) ∧
      m'.issued = deadBoard.issued ++
        List.replicate (if fails < 3 then fails + 1 else 3) (readCall 0x20001000 100 4) ∧
      (res = RES_OK ↔ ∃ i, i < 3 ∧ (deadBoard.outcome
        (deadBoard.issued.length + i)).ok = true) ∧
      (res ≠ RES_OK → res = RES_ERROR) ∧
      m'.sdReadRetries =
        (deadBoard.sdReadRetries + fails) % DWORD_RANGE ∧
      ((∀ i, i < 3 → (deadBoard.outcome
        (deadBoard.issued.length + i)).ok = false) →
        res = RES_ERROR ∧
        m'.issued = deadBoard.issued ++
          List.replicate 3 (readCall 0x20001000 100 4) ∧
        m'.sdReadRetries =
          (deadBoard.sdReadRetries + 3) % DWORD_RANGE)) ∧
    (disk_read 1 deadBoard 0 0x20001000 100 4).map
        (fun r => (r.1, r.2.sdReadRetries, r.2.issued)) =
      some (RES_ERROR, 3, [Transfer.SD_ReadMultiBlocks 0x20001000 100 4,
        Transfer.SD_ReadMultiBlocks 0x20001000 100 4,
        Transfer.SD_ReadMultiBlocks 0x20001000 100 4]) :=
  ⟨disk_read_direct_retry deadBoard 0 0 0x20001000 100 4
      rfl rfl rfl (by decide), by decide⟩

/-- C3, as stated, fails: the first write attempt fails and a second attempt would succeed,
yet `disk_write` of one sector at an aligned buffer returns `RES_ERROR` after a single
transfer and leaves `sdReadRetries` at 0. -/
theorem disk_write_no_retry_counterexample :
    (flakyBoard.outcome 0).ok
      = false ∧
    (flakyBoard.outcome 1).ok
      = true ∧
    (disk_write 1 flakyBoard
        0 0x20001000 7 1).map (fun r => (r.1, r.2.sdReadRetries, r.2.issued)) =
      some (RES_ERROR, 0, [Transfer.SD_WriteBlock 0x20001000 7]) := by
  decide

/-- C3, amended: a direct-path `disk_write` (card present, aligned DMA-capable buffer) makes
exactly one transfer attempt; it returns `RES_OK` when that attempt succeeds and `RES_ERROR`
when it fails, without a retry and without touching `sdReadRetries`. -/
theorem disk_write_direct_single (m : Machine) (depth drv buff sector count : Nat)
    (hp : m.present = true) (hb : badBuffer buff = false) :
    ∃ m' : Machine,
      disk_write (depth + 1) m drv buff sector count =
        some (if (m.outcome m.issued.length).ok = true then RES_OK else RES_ERROR, m') ∧
      m'.issued = m.issued ++ [writeCall buff sector count] ∧
      m'.sdReadRetries = m.sdReadRetries :=
  ⟨_, disk_write_direct m depth drv buff sector count hp hb, rfl, rfl⟩

/-- C3 amended, at a concrete machine whose first write attempt fails. -/
theorem disk_write_direct_single_witness :
    ∃ m' : Machine,
      disk_write 1 flakyBoard
          0 0x20001000 7 1 =
        some (if (flakyBoard.outcome flakyBoard.issued.length).ok = true then RES_OK else RES_ERROR, m') ∧
      m'.issued = flakyBoard.issued ++ [writeCall 0x20001000 7 1] ∧
      m'.sdReadRetries = flakyBoard.sdReadRetries :=
  disk_write_direct_single
    flakyBoard
    0 0 0x20001000 7 1 rfl rfl

/-- C4: the scratch relay is transparent.  On a fault-free device with the card present, for
a buffer that fails the check `badBuffer` and does not overlap the scratch sector, and a
sector range `s .. s+n-1` inside the 32-bit LBA space:

* `disk_read` returns `RES_OK`; byte `j` of sector `s+i` of the medium is at offset
  `512*i + j` of the caller's buffer; exactly `n` single-sector transfers into `scratch`
  and exactly `n` copies out of `scratch` were made; and an aligned read of the same range
  yields the same bytes;
* `disk_write` returns `RES_OK`; sectors `s .. s+n-1` of the medium hold the caller's bytes
  and the rest of the medium is untouched; exactly `n` copies into `scratch` and `n`
  single-sector transfers out of it were made; and an aligned write of the same bytes to
  the same medium leaves the same medium. -/
theorem scratch_relay_transparent (m : Machine) (depth drv buff s n : Nat)
    (hp : m.present = true) (hbad : badBuffer buff = true)
    (hs : badBuffer m.scratch = false) (hff : FaultFree m)
    (hno : NoOverlap buff (BLOCK_SIZE * n) m.scratch BLOCK_SIZE)
    (hsec : s + n ≤ DWORD_RANGE) :
    (∃ mr : Machine,
      disk_read (depth + 2) m drv buff s n = some (RES_OK, mr) ∧
      (∀ i j, i < n → j < BLOCK_SIZE →
        mr.mem (buff + BLOCK_SIZE * i + j) = m.card (BLOCK_SIZE * (s + i) + j)) ∧
      mr.issued = m.issued ++
        (List.range n).map (fun i => Transfer.SD_ReadBlock m.scratch (s + i)) ∧
      mr.copied = m.copied ++
        (List.range n).map (fun i => { dst := buff + BLOCK_SIZE * i, src := m.scratch }) ∧
      (∀ ab, badBuffer ab = false →
        ∃ ma : Machine, disk_read (depth + 1) m drv ab s n = some (RES_OK, ma) ∧
          ∀ k, k < BLOCK_SIZE * n → ma.mem (ab + k) = mr.mem (buff + k))) ∧
    (∃ mw : Machine,
      disk_write (depth + 2) m drv buff s n = some (RES_OK, mw) ∧
      (∀ i j, i < n → j < BLOCK_SIZE →
        mw.card (BLOCK_SIZE * (s + i) + j) = m.mem (buff + BLOCK_SIZE * i + j)) ∧
      (∀ c, ¬ (BLOCK_SIZE * s ≤ c ∧ c < BLOCK_SIZE * s + BLOCK_SIZE * n) →
        mw.card c = m.card c) ∧
      mw.issued = m.issued ++
        (List.range n).map (fun i => Transfer.SD_WriteBlock m.scratch (s + i)) ∧
      mw.copied = m.copied ++
        (List.range n).map (fun i => { dst := m.scratch, src := buff + BLOCK_SIZE * i }) ∧
      (∀ (m2 : Machine) (ab : Nat), badBuffer ab = false → m2.present = true →
        FaultFree m2 → m2.card = m.card →
        (∀ k, k < BLOCK_SIZE * n → m2.mem (ab + k) = m.mem (buff + k)) →
        ∃ ma : Machine, disk_write (depth + 1) m2 drv ab s n = some (RES_OK, ma) ∧
          ∀ c, ma.card c = mw.card c)) := by
  constructor
  · obtain ⟨mr, hrun, hiss, hcop, hmem, _, _, _, _, _, _, _⟩ :=
      readRelay_faultFree depth drv n m buff s RES_OK hp hs hff hno hsec
    refine ⟨mr, ?_, ?_, hiss, hcop, ?_⟩
    · rw [disk_read_relay m (depth + 1) drv buff s n hp hbad, hrun]; simp
    · intro i j hi hj
      simp only [BLOCK_SIZE] at hj hmem ⊢
      have hlt : 512 * i + j < 512 * n := by omega
      rw [hmem (buff + 512 * i + j) (by omega) (by omega)]
      have e : 512 * s + (buff + 512 * i + j - buff) = 512 * (s + i) + j := by omega
      rw [e]
    · intro ab hab
      refine ⟨_, disk_read_direct_faultFree m depth drv ab s n hp hab hff, ?_⟩
      intro k hk
      simp only [BLOCK_SIZE] at hk hmem
      rw [hmem (buff + k) (by omega) (by omega)]
      have hlen : xferLen m.next n = 512 * n := xferLen_faultFree m n hff
      have e1 : ab + k < ab + 512 * n := by omega
      have e2 : ab + k - ab = buff + k - buff := by omega
      simp [sdReadTransfer, hlen, BLOCK_SIZE, e1, e2]
  · obtain ⟨mw, hrun, hiss, hcop, hcard, hcframe, _, _, _, _, _, _⟩ :=
      writeRelay_faultFree depth drv n m buff s RES_OK hp hs hff hno hsec
    refine ⟨mw, ?_, ?_, hcframe, hiss, hcop, ?_⟩
    · rw [disk_write_relay m (depth + 1) drv buff s n hp hbad, hrun]; simp
    · intro i j hi hj
      simp only [BLOCK_SIZE] at hj hcard ⊢
      have hlt : 512 * i + j < 512 * n := by omega
      rw [hcard (512 * (s + i) + j) (by omega) (by omega)]
      have e : buff + (512 * (s + i) + j - 512 * s) = buff + 512 * i + j := by omega
      rw [e]
    · intro m2 ab hab hp2 hff2 hc2 hbytes
      have hw := disk_write_direct m2 depth drv ab s n hp2 hab
      rw [show m2.next.ok = true from hff2 _] at hw
      refine ⟨_, by simpa using hw, ?_⟩
      intro c
      have hlen : xferLen m2.next n = 512 * n := xferLen_faultFree m2 n hff2
      simp only [BLOCK_SIZE] at hcard hcframe hbytes
      by_cases hc : 512 * s ≤ c ∧ c < 512 * s + 512 * n
      · rw [hcard c hc.1 hc.2]
        simp only [sdWriteTransfer, hlen, BLOCK_SIZE, if_pos hc]
        exact hbytes (c - 512 * s) (by omega)
      · rw [hcframe c hc]
        simp only [sdWriteTransfer, hlen, BLOCK_SIZE, if_neg hc, hc2]

/-- C4 at a concrete machine: a two-sector transfer at sector 0 through the misaligned buffer
at `0x20001001` on the fault-free board. -/
theorem scratch_relay_transparent_witness :
    (∃ mr : Machine,
      disk_read 2 quietBoard 0 0x20001001 0 2 = some (RES_OK, mr) ∧
      mr.mem (0x20001001 + 512 * 1 + 3) = 14 ∧
      mr.issued = [Transfer.SD_ReadBlock 0x20000000 0, Transfer.SD_ReadBlock 0x20000000 1] ∧
      mr.copied = [{ dst := 0x20001001, src := 0x20000000 },
        { dst := 0x20001201, src := 0x20000000 }]) ∧
    (∃ mw : Machine,
      disk_write 2 quietBoard 0 0x20001001 0 2 = some (RES_OK, mw) ∧
      mw.card (512 * 1 + 3) = 3 ∧
      mw.issued = [Transfer.SD_WriteBlock 0x20000000 0, Transfer.SD_WriteBlock 0x20000000 1]) := by
  obtain ⟨⟨mr, h1, h2, h3, h4, _⟩, ⟨mw, g1, g2, _, g4, _⟩⟩ :=
    scratch_relay_transparent quietBoard 0 0 0x20001001 0 2 rfl (by decide) (by decide)
      (fun _ => rfl) (by decide) (by decide)
  refine ⟨⟨mr, h1, ?_, ?_, ?_⟩, ⟨mw, g1, ?_, ?_⟩⟩
  · exact (h2 1 3 (by decide) (by decide)).trans (by decide)
  · rw [h3]; decide
  · rw [h4]; decide
  · exact (g2 1 3 (by decide) (by decide)).trans (by decide)
  · rw [g4]; decide

/-- C5: write-then-read round trip.  On a fault-free device with the card present, for
aligned DMA-capable buffers `wb` and `rb`, `disk_write` of `n` sectors at `s` from `wb`
followed by `disk_read` of the same sectors into `rb` returns `RES_OK` both times, the
bytes read are the bytes written, and each side issues one transfer: the single-block call
when `n = 1`, the multi-block call otherwise. -/
theorem write_read_round_trip (m : Machine) (depth drv wb rb s n : Nat)
    (hp : m.present = true) (hwb : badBuffer wb = false) (hrb : badBuffer rb = false)
    (hff : FaultFree m) :
    ∃ mw mr : Machine,
      disk_write (depth + 1) m drv wb s n = some (RES_OK, mw) ∧
      disk_read (depth + 1) mw drv rb s n = some (RES_OK, mr) ∧
      (∀ k, k < BLOCK_SIZE * n → mr.mem (rb + k) = m.mem (wb + k)) ∧
      mr.issued = m.issued ++ [writeCall wb s n, readCall rb s n] ∧
      (n = 1 → writeCall wb s n = Transfer.SD_WriteBlock wb s ∧
        readCall rb s n = Transfer.SD_ReadBlock rb s) ∧
      (n ≠ 1 → writeCall wb s n = Transfer.SD_WriteMultiBlocks wb s n ∧
        readCall rb s n = Transfer.SD_ReadMultiBlocks rb s n) := by
  have hw := disk_write_direct m depth drv wb s n hp hwb
  rw [show m.next.ok = true from hff _] at hw
  obtain ⟨mw, hmw⟩ : ∃ mw : Machine, mw =
    (sdWriteTransfer m (writeCall wb s n) wb s n).2 := ⟨_, rfl⟩
  have hpw : mw.present = true := by rw [hmw]; exact hp
  have hffw : FaultFree mw := by intro k; rw [hmw]; exact hff k
  have hr := disk_read_direct_faultFree mw depth drv rb s n hpw hrb hffw
  refine ⟨mw, _, by rw [hmw]; simpa using hw, hr, ?_, ?_, ?_, ?_⟩
  · intro k hk
    have hlenr : xferLen mw.next n = 512 * n := xferLen_faultFree mw n hffw
    have hlenw : xferLen m.next n = 512 * n := xferLen_faultFree m n hff
    simp only [BLOCK_SIZE] at hk
    have e1 : rb + k < rb + 512 * n := by omega
    have e2 : rb + k - rb = k := by omega
    have e3 : 512 * s + k < 512 * s + 512 * n := by omega
    have e4 : 512 * s + k - 512 * s = k := by omega
    simp only [sdReadTransfer, hlenr, BLOCK_SIZE, e1, e2, Nat.le_add_right, and_self, if_true]
    rw [hmw]
    simp only [sdWriteTransfer, hlenw, BLOCK_SIZE, e3, e4, Nat.le_add_right, and_self, if_true]
  · rw [hmw]; simp [sdReadTransfer, sdWriteTransfer]
  · intro h1; simp [writeCall, readCall, h1]
  · intro h1; simp [writeCall, readCall, h1]

/-- C5 at a concrete machine: four sectors at sector 100, written from `0x20001000` and read
back into `0x20003000` on the fault-free board. -/
theorem write_read_round_trip_witness :
    ∃ mw mr : Machine,
      disk_write 1 quietBoard 0 0x20001000 100 4 = some (RES_OK, mw) ∧
      disk_read 1 mw 0 0x20003000 100 4 = some (RES_OK, mr) ∧
      mr.mem (0x20003000 + 700) = 5 ∧
      mr.issued = [Transfer.SD_WriteMultiBlocks 0x20001000 100 4,
        Transfer.SD_ReadMultiBlocks 0x20003000 100 4] := by
  obtain ⟨mw, mr, h1, h2, h3, h4, _, _⟩ :=
    write_read_round_trip quietBoard 0 0 0x20001000 0x20003000 100 4 rfl (by decide)
      (by decide) (fun _ => rfl)
  refine ⟨mw, mr, h1, h2, ?_, ?_⟩
  · rw [h3 700 (by decide)]; decide
  · rw [h4]; decide

/-- C6, as stated, fails: on the board whose first transfer goes through and whose later ones
fail, a two-sector read into the misaligned buffer at `0x20001001` returns `RES_ERROR`, yet
the first byte of the caller's buffer, `6` before the call, now holds the first byte of
sector 0, `1`. -/
theorem relay_read_partial_data_counterexample :
    badBuffer 0x20001001 = true ∧
    dyingBoard.mem 0x20001001 = 6 ∧
    (disk_read 2 dyingBoard 0 0x20001001 0 2).map (fun r => (r.1, r.2.mem 0x20001001)) =
      some (RES_ERROR, 1) := by
  decide

/-- C6, amended: when a relayed read (`SD_DMA_MODE` build, card present, misaligned buffer
that does not overlap the scratch sector, sector range inside the 32-bit LBA space) returns a
result other than `RES_OK`, there is a sector index `k < n`, the number of copies made, such
that the first `512 * k` bytes of the caller's buffer hold sectors `s .. s+k-1` of the medium
and every other byte of RAM outside the scratch sector, in particular the caller's buffer
from offset `512 * k` on, holds what it held before the call. -/
theorem relay_read_failure_keeps_tail (m : Machine) (depth drv buff s n : Nat)
    (res : DRESULT) (mr : Machine)
    (hp : m.present = true) (hbad : badBuffer buff = true)
    (hs : badBuffer m.scratch = false) (hd : m.SD_DMA_MODE = true)
    (hno : NoOverlap buff (BLOCK_SIZE * n) m.scratch BLOCK_SIZE)
    (hsec : s + n ≤ DWORD_RANGE)
    (hrun : disk_read (depth + 2) m drv buff s n = some (res, mr))
    (hne : res ≠ RES_OK) :
    ∃ k, k < n ∧
      mr.copied = m.copied ++
        (List.range k).map (fun i => { dst := buff + BLOCK_SIZE * i, src := m.scratch }) ∧
      (∀ i j, i < k → j < BLOCK_SIZE →
        mr.mem (buff + BLOCK_SIZE * i + j) = m.card (BLOCK_SIZE * (s + i) + j)) ∧
      (∀ x, buff + BLOCK_SIZE * k ≤ x → x < buff + BLOCK_SIZE * n → mr.mem x = m.mem x) ∧
      (∀ x, ¬ (buff ≤ x ∧ x < buff + BLOCK_SIZE * k) →
        ¬ (m.scratch ≤ x ∧ x < m.scratch + BLOCK_SIZE) → mr.mem x = m.mem x) := by
  rw [disk_read_relay m (depth + 1) drv buff s n hp hbad] at hrun
  obtain ⟨k, hk, hcop, hmem, hframe⟩ :=
    readRelay_failure depth drv n m buff s res mr hp hs hd hno hsec hrun hne
  refine ⟨k, hk, hcop, ?_, ?_, hframe⟩
  · intro i j hi hj
    simp only [BLOCK_SIZE] at hj hmem ⊢
    rw [hmem (buff + 512 * i + j) (by omega) (by omega)]
    have e : 512 * s + (buff + 512 * i + j - buff) = 512 * (s + i) + j := by omega
    rw [e]
  · intro x hx1 hx2
    unfold NoOverlap at hno
    simp only [BLOCK_SIZE] at hx1 hx2 hno hframe ⊢
    exact hframe x (by omega) (by omega)

/-- C6 amended, at the machine of the counterexample: one copy was made, the second sector
of the caller's buffer is untouched. -/
theorem relay_read_failure_keeps_tail_witness :
    ∃ mr : Machine,
      disk_read 2 dyingBoard 0 0x20001001 0 2 = some (RES_ERROR, mr) ∧
      ∃ k, k < 2 ∧
        mr.copied = dyingBoard.copied ++
          (List.range k).map (fun i =>
            { dst := 0x20001001 + BLOCK_SIZE * i, src := dyingBoard.scratch }) ∧
        (∀ i j, i < k → j < BLOCK_SIZE →
          mr.mem (0x20001001 + BLOCK_SIZE * i + j) = dyingBoard.card (BLOCK_SIZE * (0 + i) + j)) ∧
        (∀ x, 0x20001001 + BLOCK_SIZE * k ≤ x → x < 0x20001001 + BLOCK_SIZE * 2 →
          mr.mem x = dyingBoard.mem x) ∧
        (∀ x, ¬ (0x20001001 ≤ x ∧ x < 0x20001001 + BLOCK_SIZE * k) →
          ¬ (dyingBoard.scratch ≤ x ∧ x < dyingBoard.scratch + BLOCK_SIZE) →
          mr.mem x = dyingBoard.mem x) :=
  ⟨_, rfl, relay_read_failure_keeps_tail dyingBoard 0 0 0x20001001 0 2 RES_ERROR _
    rfl (by decide) (by decide) rfl (by decide) (by decide) rfl (by decide)⟩

/-- C7, as stated, fails on 32-bit counters: after `2^32 - 1` completed filesystem
operations the next call of `ff_req_grant` wraps `ioMutexReq` to `0` while `ioMutexRel` is
`4294967295`, so `ioMutexReq >= ioMutexRel` does not hold in that reachable state. -/
theorem lock_counters_wrap_counterexample :
    FsState.boot.run (completedOps 4294967295 ++ [FsEvent.enter StatusType.E_OK]) =
      some { locks := { ioMutexReq := 0, ioMutexRel := 4294967295 }, pending := 1 } ∧
    ¬ ((0 : Nat) ≥ 4294967295) := by
  refine ⟨?_, by omega⟩
  rw [FsState.run_append, completedOps_run]
  simp only [Option.bind, FsState.run, FsState.step, ff_req_grant, DWORD_RANGE_eq]

/-- C7, amended: `ff_req_grant` adds exactly 1 (as a `uint32_t`) to `ioMutexReq` whether or
not the mutex is granted and leaves `ioMutexRel` alone, `ff_rel_grant` adds exactly 1 to
`ioMutexRel` and leaves `ioMutexReq` alone; in every state reached from start-up by a
sequence of filesystem operations, `ioMutexReq` equals `ioMutexRel` plus the number of
operations in progress modulo `2^32`, so the two are equal whenever no operation is in
progress; and `ioMutexReq >= ioMutexRel` holds as long as `ff_req_grant` has been called
fewer than `2^32` times. -/
theorem lock_accounting (es : List FsEvent) (s : FsState)
    (h : FsState.boot.run es = some s) :
    (∀ (l : Locks) (entered : StatusType),
      (ff_req_grant l entered).2.ioMutexReq = (l.ioMutexReq + 1) % DWORD_RANGE ∧
      (ff_req_grant l entered).2.ioMutexRel = l.ioMutexRel) ∧
    (∀ l : Locks,
      (ff_rel_grant l).ioMutexRel = (l.ioMutexRel + 1) % DWORD_RANGE ∧
      (ff_rel_grant l).ioMutexReq = l.ioMutexReq) ∧
    s.locks.ioMutexReq = (s.locks.ioMutexRel + s.pending) % DWORD_RANGE ∧
    (s.pending = 0 → s.locks.ioMutexReq = s.locks.ioMutexRel) ∧
    (es.countP FsEvent.isEnter < DWORD_RANGE → s.locks.ioMutexReq ≥ s.locks.ioMutexRel) := by
  obtain ⟨a, b, c⟩ := lock_counts es FsState.boot s 0 0 h rfl rfl rfl
  simp only [Nat.zero_add] at a b c
  rw [DWORD_RANGE_eq] at a b ⊢
  refine ⟨fun l e => ⟨rfl, rfl⟩, fun l => ⟨rfl, rfl⟩, ?_, ?_, ?_⟩
  · rw [a, b]; omega
  · intro hp; rw [a, b]; congr 1; omega
  · intro hlt; rw [a, b]; omega

/-- C7 amended, at a concrete run: two completed operations, the second one refused the
lock, and a third one in progress. -/
theorem lock_accounting_witness :
    FsState.boot.run [FsEvent.enter StatusType.E_OK, FsEvent.leave,
        FsEvent.enter (StatusType.E_FAIL 3), FsEvent.leave,
        FsEvent.enter StatusType.E_OK] =
      some { locks := { ioMutexReq := 3, ioMutexRel := 2 }, pending := 1 } ∧
    (3 : Nat) = (2 + 1) % DWORD_RANGE ∧ (3 : Nat) ≥ 2 :=
  ⟨rfl,
    (lock_accounting [FsEvent.enter StatusType.E_OK, FsEvent.leave,
        FsEvent.enter (StatusType.E_FAIL 3), FsEvent.leave, FsEvent.enter StatusType.E_OK]
      { locks := { ioMutexReq := 3, ioMutexRel := 2 }, pending := 1 } rfl).2.2.1,
    (lock_accounting [FsEvent.enter StatusType.E_OK, FsEvent.leave,
        FsEvent.enter (StatusType.E_FAIL 3), FsEvent.leave, FsEvent.enter StatusType.E_OK]
      { locks := { ioMutexReq := 3, ioMutexRel := 2 }, pending := 1 } rfl).2.2.2.2
      (by decide)⟩

/-- C8: mount lifecycle.  `sdMounted()` is false before `sdInit()`; it changes no state; it
is true after an `sdInit()` in which mutex creation and `f_mount` both succeed; it is false
after an `sdInit()` in which `f_mount` fails; and it is false after `sdDone()`, whatever the
state `sdDone()` is called in. -/
theorem mount_lifecycle (s : SdState) (env : InitEnv) :
    (sdMounted SdState.boot).1 = 0 ∧
    (sdMounted s).2 = s ∧
    (env.mutexId < env.CFG_MAX_MUTEX → env.mountError = none → env.found ≠ 0 →
      (sdMounted (sdInit s env)).1 = 1) ∧
    (env.mutexId < env.CFG_MAX_MUTEX → (env.mountError ≠ none ∨ env.found = 0) →
      (sdMounted (sdInit s env)).1 = 0) ∧
    (sdMounted (sdDone s)).1 = 0 ∧
    (sdMounted (sdDone (sdInit s env))).1 = 0 := by
  have hdone : ∀ t : SdState, (sdMounted (sdDone t)).1 = 0 := by
    intro t
    by_cases h : t.fs_type = 0 <;> simp [sdDone, sdMounted, f_mount_unmount, h]
  refine ⟨rfl, rfl, ?_, ?_, hdone s, hdone _⟩
  · intro h1 h2 h3
    have : ¬ env.CFG_MAX_MUTEX ≤ env.mutexId := by omega
    simp [sdInit, sdMounted, f_mount_mount, this, h2, h3]
  · intro h1 h2
    have : ¬ env.CFG_MAX_MUTEX ≤ env.mutexId := by omega
    rcases h2 with h2 | h2
    · cases hm : env.mountError with
      | none => exact absurd hm h2
      | some code => simp [sdInit, sdMounted, f_mount_mount, this, hm]
    · cases hm : env.mountError with
      | none => simp [sdInit, sdMounted, f_mount_mount, this, hm, h2]
      | some code => simp [sdInit, sdMounted, f_mount_mount, this, hm]

/-- C8 at concrete environments: a FAT32 volume is found (mounted, then unmounted by
`sdDone`), and no volume is found (not mounted). -/
theorem mount_lifecycle_witness :
    (sdMounted (sdInit SdState.boot
      { CFG_MAX_MUTEX := 4, mutexId := 1, found := 3, mountError := none })).1 = 1 ∧
    (sdMounted (sdDone (sdInit SdState.boot
      { CFG_MAX_MUTEX := 4, mutexId := 1, found := 3, mountError := none }))).1 = 0 ∧
    (sdMounted (sdInit SdState.boot
      { CFG_MAX_MUTEX := 4, mutexId := 1, found := 0, mountError := none })).1 = 0 :=
  ⟨(mount_lifecycle SdState.boot
      { CFG_MAX_MUTEX := 4, mutexId := 1, found := 3, mountError := none }).2.2.1
      (by decide) rfl (by decide),
    (mount_lifecycle SdState.boot
      { CFG_MAX_MUTEX := 4, mutexId := 1, found := 3, mountError := none }).2.2.2.2.2,
    (mount_lifecycle SdState.boot
      { CFG_MAX_MUTEX := 4, mutexId := 1, found := 0, mountError := none }).2.2.2.1
      (by decide) (Or.inr rfl)⟩

/-- C9: for every drive index and every machine state, `disk_status` returns a status whose
`STA_NODISK` bit is set exactly when the card is not present, sets no other bit, issues no
transfer and changes no state, so that a second call returns the same value. -/
theorem disk_status_spec (m : Machine) (drv : Nat) :
    ((disk_status m drv).1 &&& STA_NODISK ≠ 0 ↔ m.present = false) ∧
    ((disk_status m drv).1 = 0 ∨ (disk_status m drv).1 = STA_NODISK) ∧
    (disk_status m drv).1 &&& STA_NOINIT = 0 ∧
    (disk_status m drv).1 &&& STA_PROTECT = 0 ∧
    (disk_status m drv).2 = m ∧
    (disk_status m drv).2.issued = m.issued ∧
    (disk_status (disk_status m drv).2 drv).1 = (disk_status m drv).1 := by
  cases hp : m.present
  · simp [disk_status, hp, STA_NODISK, STA_NOINIT, STA_PROTECT]
    decide
  · simp [disk_status, hp, STA_NODISK, STA_NOINIT, STA_PROTECT]

/-- C10: `disk_initialize` returns normally with a status whose `STA_NOINIT` bit is set for
every drive index other than 0 whatever `SD_Init()` returns; for drive 0 the status is `0`
when `SD_Init()` returns `SD_OK` and has `STA_NOINIT` set when it does not; so `STA_NOINIT`
is set exactly when `drv != 0` or `SD_Init() != SD_OK`, and no other bit ever is. -/
theorem disk_initialize_spec (SD_Init : SD_Error) (drv : Nat) :
    (drv ≠ 0 → disk_initialize SD_Init drv &&& STA_NOINIT ≠ 0) ∧
    (drv = 0 → SD_Init = SD_OK → disk_initialize SD_Init drv = 0) ∧
    (drv = 0 → SD_Init ≠ SD_OK → disk_initialize SD_Init drv &&& STA_NOINIT ≠ 0) ∧
    ( disk_initialize SD_Init drv &&& STA_NOINIT ≠ 0 ↔ (drv ≠ 0 ∨ SD_Init ≠ SD_OK)) ∧
    ( disk_initialize SD_Init drv = 0 ∨ disk_initialize SD_Init drv = STA_NOINIT) := by
  by_cases hd : drv = 0 <;> cases SD_Init <;>
    simp [ disk_initialize, hd, STA_NOINIT]

/-- C11: when `CoCreateMutex()` returns an id at or above `CFG_MAX_MUTEX`, `sdInit()` returns
having called nothing but `CoCreateMutex`: neither `f_mount` nor the warm-up
`sdGetFreeSectors()`; the mount descriptor is untouched, so `sdMounted()` stays false when
it was false; and every later `ff_req_grant` on the lock object `ff_cre_syncobj` hands out
returns 0 whatever the scheduler would answer, while still counting the request. -/
theorem lock_creation_failure (s : SdState) (env : InitEnv) (l : Locks)
    (answer : StatusType) (vol : Nat) (h : env.mutexId ≥ env.CFG_MAX_MUTEX) :
    (sdInit s env).calls = s.calls ++ [SdCall.CoCreateMutex] ∧
    SdCall.f_mount_mount ∉ (sdInit s env).calls.drop s.calls.length ∧
    SdCall.sdGetFreeSectors ∉ (sdInit s env).calls.drop s.calls.length ∧
    (sdInit s env).fs_type = s.fs_type ∧
    ((sdMounted s).1 = 0 → (sdMounted (sdInit s env)).1 = 0) ∧
    (ff_cre_syncobj (sdInit s env) vol).2 = env.mutexId ∧
    (ff_req_grant l
      (CoEnterMutexSection env.CFG_MAX_MUTEX (ff_cre_syncobj (sdInit s env) vol).2 answer)).1
      = 0 ∧
    (ff_req_grant l
      (CoEnterMutexSection env.CFG_MAX_MUTEX (ff_cre_syncobj (sdInit s env) vol).2 answer)).2
      = { l with ioMutexReq := (l.ioMutexReq + 1) % DWORD_RANGE } := by
  have hinit : sdInit s env =
      { s with ioMutex := env.mutexId, calls := s.calls ++ [SdCall.CoCreateMutex] } := by
    simp [sdInit, h]
  rw [hinit]
  refine ⟨rfl, by simp, by simp, rfl, ?_, rfl, ?_, ?_⟩
  · intro h0; simpa [sdMounted] using h0
  · simp [ff_cre_syncobj, CoEnterMutexSection, ff_req_grant, h]
  · simp [ff_cre_syncobj, CoEnterMutexSection, ff_req_grant, h]

/-- C11 at a concrete start-up: `CoCreateMutex()` returns `0xFF` with room for 4 mutexes. -/
theorem lock_creation_failure_witness :
    (sdInit SdState.boot
      { CFG_MAX_MUTEX := 4, mutexId := 255, found := 3, mountError := none }).calls =
      [SdCall.CoCreateMutex] ∧
    (sdMounted (sdInit SdState.boot
      { CFG_MAX_MUTEX := 4, mutexId := 255, found := 3, mountError := none })).1 = 0 ∧
    (ff_req_grant Locks.boot (CoEnterMutexSection 4 255 StatusType.E_OK)).1 = 0 :=
  ⟨(lock_creation_failure SdState.boot
      { CFG_MAX_MUTEX := 4, mutexId := 255, found := 3, mountError := none } Locks.boot
      StatusType.E_OK 0 (by decide)).1,
    (lock_creation_failure SdState.boot
      { CFG_MAX_MUTEX := 4, mutexId := 255, found := 3, mountError := none } Locks.boot
      StatusType.E_OK 0 (by decide)).2.2.2.2.1 rfl,
    (lock_creation_failure SdState.boot
      { CFG_MAX_MUTEX := 4, mutexId := 255, found := 3, mountError := none } Locks.boot
      StatusType.E_OK 0 (by decide)).2.2.2.2.2.2.1⟩

/-- C12: `sdDone()` with the filesystem not mounted changes nothing and calls nothing; with
the filesystem mounted it calls `audioQueue.stopSD()` and then `f_mount(NULL, ...)`, each
exactly once and in that order, and nothing else. -/
theorem sdDone_spec (s : SdState) :
    ((sdMounted s).1 = 0 → sdDone s = s) ∧
    ((sdMounted s).1 ≠ 0 →
      (sdDone s).calls = s.calls ++ [SdCall.stopSD, SdCall.f_mount_unmount] ∧
      ((sdDone s).calls.drop s.calls.length).count SdCall.stopSD = 1 ∧
      ((sdDone s).calls.drop s.calls.length).count SdCall.f_mount_unmount = 1 ∧
      (sdDone s).ioMutex = s.ioMutex) := by
  by_cases h : s.fs_type = 0
  · simp [sdDone, sdMounted, h]
  · simp [sdDone, sdMounted, f_mount_unmount, h]

/-- C12 at concrete states: not mounted, and mounted with a FAT32 volume. -/
theorem sdDone_spec_witness :
    sdDone SdState.boot = SdState.boot ∧
    (sdDone { ioMutex := 1, fs_type := 3, calls := [] }).calls =
      [SdCall.stopSD, SdCall.f_mount_unmount] :=
  ⟨(sdDone_spec SdState.boot).1 rfl,
    ((sdDone_spec { ioMutex := 1, fs_type := 3, calls := [] }).2 (by decide)).1⟩

/-- C13 is not what the code does: `cliHelp` compares every table entry with `argv[0]`, the
word `help` itself, not with `argv[1]`.  The line `help ls` prints the synopsis of `help`
and returns 0, and so does `help nosuch`, which names no command; this holds for every
non-empty `argv[1]`.  Only the form with an empty `argv[1]` lists the whole table (and
returns -1). -/
theorem cliHelp_names_itself :
    cliExecLine cliHandlers "help ls" =
      some { printed := ["help [<command>]"], ret := 0 } ∧
    cliExecLine cliHandlers "help nosuch" =
      some { printed := ["help [<command>]"], ret := 0 } ∧
    (∀ argv1 : String, argv1 ≠ "" →
      cliHelp ["help", argv1] = some { printed := ["help [<command>]"], ret := 0 }) ∧
    cliExecLine cliHandlers "help " =
      some { printed := cliCommands.map (fun c => c.name ++ " " ++ c.args), ret := -1 } := by
  refine ⟨by decide, by decide, ?_, by decide⟩
  intro argv1 h
  simp [cliHelp, cliHelpLoop, cliCommands, h]

/-- C16: `disk_ioctl` returns `RES_PARERR` exactly when `drv != 0`, and then stores nothing
and polls nothing.  For `drv == 0` it returns `RES_OK` for every control code:
`GET_SECTOR_COUNT` stores `CardCapacity / CardBlockSize` as a `DWORD` through `buff`
(for a non-zero `CardBlockSize`), `GET_SECTOR_SIZE` stores `CardBlockSize` as a `WORD`,
`CTRL_SYNC` polls until the controller is no longer busy and stores nothing, and every other
code stores nothing and polls nothing. -/
theorem disk_ioctl_spec (m : Machine) (info : SD_CardInfo) (a : Attempt)
    (drv ctrl buff : Nat) :
    (drv ≠ 0 → disk_ioctl m info a drv ctrl buff = some (RES_PARERR, m, 0)) ∧
    (∀ r, disk_ioctl m info a drv ctrl buff = some r → (r.1 = RES_PARERR ↔ drv ≠ 0)) ∧
    (∀ r, disk_ioctl m info a drv ctrl buff = some r → drv = 0 → r.1 = RES_OK) ∧
    (drv = 0 → ctrl = GET_SECTOR_COUNT → info.CardBlockSize ≠ 0 →
      ∃ m' : Machine, disk_ioctl m info a drv ctrl buff = some (RES_OK, m', 0) ∧
        loadDWORD m'.mem buff = (info.CardCapacity / info.CardBlockSize) % DWORD_RANGE ∧
        (∀ x, ¬ (buff ≤ x ∧ x < buff + 4) → m'.mem x = m.mem x) ∧
        m'.card = m.card ∧ m'.issued = m.issued ∧ m'.sdReadRetries = m.sdReadRetries) ∧
    (drv = 0 → ctrl = GET_SECTOR_SIZE →
      ∃ m' : Machine, disk_ioctl m info a drv ctrl buff = some (RES_OK, m', 0) ∧
        loadWORD m'.mem buff = info.CardBlockSize % 2 ^ 16 ∧
        (∀ x, ¬ (buff ≤ x ∧ x < buff + 2) → m'.mem x = m.mem x) ∧
        m'.card = m.card ∧ m'.issued = m.issued ∧ m'.sdReadRetries = m.sdReadRetries) ∧
    (drv = 0 → ctrl = CTRL_SYNC →
      disk_ioctl m info a drv ctrl buff = some (RES_OK, m, a.busy + 1)) ∧
    (drv = 0 → ctrl ≠ GET_SECTOR_COUNT → ctrl ≠ GET_SECTOR_SIZE → ctrl ≠ CTRL_SYNC →
      disk_ioctl m info a drv ctrl buff = some (RES_OK, m, 0)) := by
  refine ⟨?_, ?_, ?_, ?_, ?_, ?_, ?_⟩
  · intro h; simp [disk_ioctl, h]
  · intro r hr
    by_cases hd : drv = 0
    · subst hd
      simp only [disk_ioctl, ne_eq, not_true_eq_false, if_false] at hr
      split at hr
      · split at hr
        · exact absurd hr (by simp)
        · cases hr; simp
      · split at hr
        · cases hr; simp
        · split at hr <;> (cases hr; simp)
    · simp only [disk_ioctl, ne_eq, hd, not_false_eq_true, if_true] at hr
      cases hr; simp [hd]
  · intro r hr hd
    subst hd
    simp only [disk_ioctl, ne_eq, not_true_eq_false, if_false] at hr
    split at hr
    · split at hr
      · exact absurd hr (by simp)
      · cases hr; rfl
    · split at hr
      · cases hr; rfl
      · split at hr <;> (cases hr; rfl)
  · intro hd hc hb
    obtain ⟨v, hv⟩ : ∃ v, v = (info.CardCapacity / info.CardBlockSize) % DWORD_RANGE :=
      ⟨_, rfl⟩
    rw [← hv]
    refine ⟨{ m with mem := storeDWORD m.mem buff v },
      by simp [disk_ioctl, hd, hc, hb, hv], ?_, ?_, rfl, rfl, rfl⟩
    · exact loadDWORD_storeDWORD _ _ _ (hv ▸ Nat.mod_lt _ (by simp [DWORD_RANGE]))
    · intro x hx
      have e0 : ¬ x = buff := by omega
      have e1 : ¬ x = buff + 1 := by omega
      have e2 : ¬ x = buff + 2 := by omega
      have e3 : ¬ x = buff + 3 := by omega
      simp [storeDWORD, e0, e1, e2, e3]
  · intro hd hc
    refine ⟨{ m with mem := storeWORD m.mem buff (info.CardBlockSize % 2 ^ 16) },
      by simp [disk_ioctl, hd, hc, GET_SECTOR_SIZE, GET_SECTOR_COUNT], ?_, ?_,
      rfl, rfl, rfl⟩
    · exact loadWORD_storeWORD _ _ _ (Nat.mod_lt _ (by norm_num))
    · intro x hx
      have e0 : ¬ x = buff := by omega
      have e1 : ¬ x = buff + 1 := by omega
      simp [storeWORD, e0, e1]
  · intro hd hc
    simp [disk_ioctl, hd, hc, CTRL_SYNC, GET_SECTOR_SIZE, GET_SECTOR_COUNT,
      syncPolls_count a a.busy 0 (by omega)]
  · intro hd h1 h2 h3
    simp [disk_ioctl, hd, h1, h2, h3]

/-- C16 at a concrete card of 4 GB with 512-byte blocks: the sector count `8388608` and the
sector size `512` are read back from the buffer at `0x20001000`, and drive 1 is refused. -/
theorem disk_ioctl_spec_witness :
    (disk_ioctl quietBoard { CardCapacity := 4294967296, CardBlockSize := 512 }
        Attempt.success 0 GET_SECTOR_COUNT 0x20001000).map
      (fun r => (r.1, loadDWORD r.2.1.mem 0x20001000)) = some (RES_OK, 8388608) ∧
    (disk_ioctl quietBoard { CardCapacity := 4294967296, CardBlockSize := 512 }
        Attempt.success 0 GET_SECTOR_SIZE 0x20001000).map
      (fun r => (r.1, loadWORD r.2.1.mem 0x20001000)) = some (RES_OK, 512) ∧
    disk_ioctl quietBoard { CardCapacity := 4294967296, CardBlockSize := 512 }
        Attempt.success 1 GET_SECTOR_COUNT 0x20001000 = some (RES_PARERR, quietBoard, 0) :=
  ⟨by decide, by decide,
    (disk_ioctl_spec quietBoard { CardCapacity := 4294967296, CardBlockSize := 512 }
      Attempt.success 1 GET_SECTOR_COUNT 0x20001000).1 (by decide)⟩

/-- C17 is not what the code does for a read-buffer size of 0 sectors, which the argument
checks of `cliReadSD` let through: with `readsd 0 1 0` on a fault-free card every
`disk_read` of 0 sectors returns `RES_OK` (and leaves the card fault-free), `numberOfSectors`
stays 1, and the loop has not ended after any number `loops` of iterations. -/
theorem cliReadSD_zero_buffer_never_ends (loops depth buffer : Nat) :
    cliReadSD loops (depth + 1) quietBoard
      { result := 1, val := 0 } { result := 1, val := 1 } { result := 1, val := 0 } buffer =
      none ∧
    (∀ m : Machine, m.present = true → FaultFree m →
      ∃ m1, disk_read (depth + 1) m 0 buffer 0 0 = some (RES_OK, m1) ∧
        m1.present = true ∧ FaultFree m1) := by
  have := cliReadSDLoop_zero_buffer depth buffer 0 loops quietBoard 1 rfl (fun _ => rfl)
    (by decide)
  exact ⟨by simpa [cliReadSD] using this,
    fun m hp hff => disk_read_zero_count m depth buffer 0 hp hff⟩

/-- C14: the scratch relay aborts on the first sub-transfer error.  Card present, misaligned
buffer, scratch sector in DMA-capable memory, sector range inside the 32-bit LBA space.
Read: if the nested single-sector reads for sectors `s .. s+k-1` return `RES_OK` (each
followed by the copy into the caller's buffer) and the one for sector `s+k`, `k < n`, returns
`res != RES_OK` and leaves the machine `mr`, then `disk_read` returns exactly `res` and
leaves exactly `mr`: nothing is issued after the failing sub-transfer.  The log then holds,
after what it held before, `f_i + 1` single-block reads of sector `s+i` for each `i < k`
(`f_i < 3` failed attempts, then the one that went through) and the 3 failed reads of sector
`s+k`, and `sdReadRetries` has grown by `f_0 + .. + f_(k-1) + 3` (mod `2^32`).
Write: likewise `disk_write` returns exactly the result and the machine of the failing
nested write for sector `s+k`; the log holds one single-block write for each of the sectors
`s .. s+k` and none for a later one, and `sdReadRetries` is unchanged. -/
theorem relay_aborts_on_first_error (m : Machine) (depth drv buff s n : Nat)
    (hp : m.present = true) (hbad : badBuffer buff = true)
    (hs : badBuffer m.scratch = false) (hr : m.sdReadRetries < DWORD_RANGE)
    (hsec : s + n ≤ DWORD_RANGE) :
    (∀ (k : Nat) (ms : Nat → Machine) (res : DRESULT) (mr : Machine),
      k < n → ms 0 = m →
      (∀ i, i < k → ∃ mi,
        disk_read (depth + 1) (ms i) drv (ms i).scratch (s + i) 1 = some (RES_OK, mi) ∧
        ms (i + 1) = memcpy mi (buff + BLOCK_SIZE * i) mi.scratch) →
      disk_read (depth + 1) (ms k) drv (ms k).scratch (s + k) 1 = some (res, mr) →
      res ≠ RES_OK →
      disk_read (depth + 2) m drv buff s n = some (res, mr) ∧
      ∃ fs : List Nat, fs.length = k ∧ (∀ f ∈ fs, f < 3) ∧
        mr.issued = m.issued ++ subTransferLog (Transfer.SD_ReadBlock m.scratch) s fs ++
          List.replicate 3 (Transfer.SD_ReadBlock m.scratch (s + k)) ∧
        mr.sdReadRetries = (m.sdReadRetries + (fs.sum + 3)) % DWORD_RANGE) ∧
    (∀ (k : Nat) (ms : Nat → Machine) (res : DRESULT) (mw : Machine),
      k < n → ms 0 = m →
      (∀ i, i < k →
        disk_write (depth + 1) (memcpy (ms i) (ms i).scratch (buff + BLOCK_SIZE * i)) drv
          (ms i).scratch (s + i) 1 = some (RES_OK, ms (i + 1))) →
      disk_write (depth + 1) (memcpy (ms k) (ms k).scratch (buff + BLOCK_SIZE * k)) drv
        (ms k).scratch (s + k) 1 = some (res, mw) →
      res ≠ RES_OK →
      disk_write (depth + 2) m drv buff s n = some (res, mw) ∧
      mw.issued = m.issued ++
        (List.range (k + 1)).map (fun i => Transfer.SD_WriteBlock m.scratch (s + i)) ∧
      mw.copied = m.copied ++
        (List.range (k + 1)).map (fun i => { dst := m.scratch, src := buff + BLOCK_SIZE * i }) ∧
      mw.sdReadRetries = m.sdReadRetries) := by
  constructor
  · intro k ms res mr hk h0 hbefore hat hne
    have hp0 : (ms 0).present = true := by rw [h0]; exact hp
    have hs0 : badBuffer (ms 0).scratch = false := by rw [h0]; exact hs
    have hr0 : (ms 0).sdReadRetries < DWORD_RANGE := by rw [h0]; exact hr
    refine ⟨?_, ?_⟩
    · rw [disk_read_relay m (depth + 1) drv buff s n hp hbad]
      exact readRelay_trace (fun m1 sec => disk_read (depth + 1) m1 drv m1.scratch sec 1)
        k n m buff s RES_OK ms res mr hk h0 hsec hbefore hat hne
    · obtain ⟨fs, hlen, hall, hiss, hcnt, hsc, hpr⟩ :=
        readTrace_log depth drv buff s ms hp0 hs0 hr0 k hbefore
      rw [h0] at hiss hcnt hsc
      rw [disk_read_direct (ms k) depth drv (ms k).scratch (s + k) 1 hpr
        (by rw [hsc]; exact hs)] at hat
      have hat1 := Option.some.inj hat
      obtain ⟨fails, hle, liss, lres, lcnt⟩ :=
        readRetry_log (ms k).scratch (s + k) 1 3 (ms k) RES_OK
      rw [hat1] at liss lres lcnt
      simp only at liss lres lcnt
      have hf : ¬ fails < 3 := by
        intro hc
        rw [if_pos hc] at lres
        exact hne lres
      have hf3 : fails = 3 := by omega
      subst hf3
      refine ⟨fs, hlen, hall, ?_, ?_⟩
      · rw [liss, hiss, hsc]
        simp [readCall]
      · rw [lcnt, hcnt]
        simp only [OfNat.ofNat_ne_zero, if_false]
        rw [DWORD_RANGE_eq]; omega
  · intro k ms res mw hk h0 hbefore hat hne
    have hp0 : (ms 0).present = true := by rw [h0]; exact hp
    have hs0 : badBuffer (ms 0).scratch = false := by rw [h0]; exact hs
    refine ⟨?_, ?_⟩
    · rw [disk_write_relay m (depth + 1) drv buff s n hp hbad]
      exact writeRelay_trace (fun m1 sec => disk_write (depth + 1) m1 drv m1.scratch sec 1)
        k n m buff s RES_OK ms res mw hk h0 hsec hbefore hat hne
    · obtain ⟨hiss, hcop, hcnt, hsc, hpr⟩ :=
        writeTrace_log depth drv buff s ms hp0 hs0 k hbefore
      rw [h0] at hiss hcop hcnt hsc
      rw [disk_write_direct (memcpy (ms k) (ms k).scratch (buff + BLOCK_SIZE * k)) depth drv
        (ms k).scratch (s + k) 1 hpr (by rw [hsc]; exact hs)] at hat
      have hat1 := (Prod.mk.inj (Option.some.inj hat)).2
      refine ⟨?_, ?_, ?_⟩
      · rw [← hat1, List.range_succ, List.map_append]
        simp [sdWriteTransfer, memcpy, writeCall, hiss, hsc]
      · rw [← hat1, List.range_succ, List.map_append]
        simp [sdWriteTransfer, memcpy, hcop, hsc]
      · rw [← hat1]; exact hcnt

/-- C14 on the board whose first transfer goes through and whose later ones fail, for a
two-sector transfer with the misaligned buffer at `0x20001001`: the sub-transfer for sector 0
returns `RES_OK`, the one for sector 1 returns `RES_ERROR`, and that is what `disk_read` and
`disk_write` return. -/
theorem relay_aborts_on_first_error_witness :
    (∃ mr : Machine,
      disk_read 2 dyingBoard 0 0x20001001 0 2 = some (RES_ERROR, mr) ∧
      ∃ fs : List Nat, fs.length = 1 ∧ (∀ f ∈ fs, f < 3) ∧
        mr.issued = dyingBoard.issued ++
            subTransferLog (Transfer.SD_ReadBlock dyingBoard.scratch) 0 fs ++
          List.replicate 3 (Transfer.SD_ReadBlock dyingBoard.scratch (0 + 1)) ∧
        mr.sdReadRetries = (dyingBoard.sdReadRetries + (fs.sum + 3)) % DWORD_RANGE) ∧
    (∃ mw : Machine,
      disk_write 2 dyingBoard 0 0x20001001 0 2 = some (RES_ERROR, mw) ∧
      mw.issued = dyingBoard.issued ++
        (List.range (1 + 1)).map (fun i => Transfer.SD_WriteBlock dyingBoard.scratch (0 + i)) ∧
      mw.copied = dyingBoard.copied ++
        (List.range (1 + 1)).map
          (fun i => { dst := dyingBoard.scratch, src := 0x20001001 + BLOCK_SIZE * i }) ∧
      mw.sdReadRetries = dyingBoard.sdReadRetries) := by
  have h := relay_aborts_on_first_error dyingBoard 0 0 0x20001001 0 2 rfl (by decide)
    (by decide) (by decide) (by decide)
  constructor
  · exact ⟨_, h.1 1
      (fun i => if i = 0 then dyingBoard
        else memcpy (readRetry 3 dyingBoard dyingBoard.scratch 0 1 RES_OK).2 0x20001001
          dyingBoard.scratch)
      RES_ERROR _ (by decide) rfl
      (by intro i hi; obtain rfl : i = 0 := by omega
          exact ⟨_, rfl, rfl⟩)
      rfl (by decide)⟩
  · exact ⟨_, h.2 1
      (fun i => if i = 0 then dyingBoard
        else (writeAttempt (memcpy dyingBoard dyingBoard.scratch 0x20001001)
          dyingBoard.scratch 0 1).2)
      RES_ERROR _ (by decide) rfl
      (by intro i hi; obtain rfl : i = 0 := by omega
          rfl)
      rfl (by decide)⟩

/-- C15: buffer validation and routing, with the card present.  The buffer test passes
exactly when the address is at least `0x20000000` and a multiple of 4; then `disk_read` is
the retry loop on the caller's buffer and `disk_write` the single direct transfer, otherwise
both are the relay loop over nested calls on the scratch sector.  A direct transfer is logged
as the single-block call exactly when `count == 1` and as the multi-block call for every
other count (a direct read issues it between one and three times).  When the scratch sector
itself passes the test, a relayed call returns with one level of nesting (fuel 2), every
larger nesting bound gives the same result, and it makes at most `count` sub-transfers: a
relayed read makes one copy after each sub-transfer that went through, so copies (plus one
if it failed) are at most `count`, and a relayed write makes one copy before each
sub-transfer and issues exactly one transfer in each. -/
theorem buffer_routing (m : Machine) (depth drv buff s count : Nat)
    (hp : m.present = true) :
    (badBuffer buff = false ↔ 0x20000000 ≤ buff ∧ buff % 4 = 0) ∧
    (badBuffer buff = false →
      disk_read (depth + 1) m drv buff s count =
        some (readRetry 3 m buff s count RES_OK) ∧
      disk_write (depth + 1) m drv buff s count = some (writeAttempt m buff s count)) ∧
    (badBuffer buff = true →
      disk_read (depth + 1) m drv buff s count =
        readRelay (fun m1 sec => disk_read depth m1 drv m1.scratch sec 1) count m buff s
          RES_OK ∧
      disk_write (depth + 1) m drv buff s count =
        writeRelay (fun m1 sec => disk_write depth m1 drv m1.scratch sec 1) count m buff s
          RES_OK) ∧
    (∃ j, 1 ≤ j ∧ j ≤ 3 ∧
      (readRetry 3 m buff s count RES_OK).2.issued = m.issued ++ List.replicate j
        (if count = 1 then Transfer.SD_ReadBlock buff s
         else Transfer.SD_ReadMultiBlocks buff s count)) ∧
    (writeAttempt m buff s count).2.issued = m.issued ++
      [if count = 1 then Transfer.SD_WriteBlock buff s
       else Transfer.SD_WriteMultiBlocks buff s count] ∧
    (badBuffer buff = true → badBuffer m.scratch = false →
      (∃ res mr, disk_read 2 m drv buff s count = some (res, mr) ∧
        disk_read (depth + 2) m drv buff s count = some (res, mr) ∧
        mr.copied.length + (if res = RES_OK then 0 else 1) ≤ m.copied.length + count ∧
        (res = RES_OK → mr.copied.length = m.copied.length + count) ∧
        mr.issued.length ≤ m.issued.length + 3 * count) ∧
      (∃ res mw, disk_write 2 m drv buff s count = some (res, mw) ∧
        disk_write (depth + 2) m drv buff s count = some (res, mw) ∧
        mw.copied.length ≤ m.copied.length + count ∧
        (res = RES_OK → mw.copied.length = m.copied.length + count) ∧
        mw.issued.length + m.copied.length = m.issued.length + mw.copied.length)) := by
  refine ⟨?_, ?_, ?_, ?_, ?_, ?_⟩
  · simp only [badBuffer, Bool.or_eq_false_iff, decide_eq_false_iff_not, bne_eq_false_iff_eq,
      Nat.not_lt]
  · intro hb
    exact ⟨disk_read_direct m depth drv buff s count hp hb,
      by rw [disk_write]; simp [hp, hb]⟩
  · intro hb
    exact ⟨by rw [disk_read]; simp [hp, hb], by rw [disk_write]; simp [hp, hb]⟩
  · obtain ⟨fails, hle, liss, _, _⟩ := readRetry_log buff s count 3 m RES_OK
    refine ⟨if fails < 3 then fails + 1 else 3, ?_, ?_, ?_⟩
    · split <;> omega
    · split <;> omega
    · rw [liss]; rfl
  · rw [writeAttempt_snd]; rfl
  · intro hb hs
    constructor
    · obtain ⟨res, mr, h1, h0, hc, hce, hi⟩ := readRelay_fuel depth drv count m buff s hp hs
      refine ⟨res, mr, ?_, ?_, hc, hce, hi⟩
      · rw [disk_read_relay m 1 drv buff s count hp hb]; exact h0
      · rw [disk_read_relay m (depth + 1) drv buff s count hp hb]; exact h1
    · obtain ⟨res, mw, h1, h0, hc, hce, hi⟩ := writeRelay_fuel depth drv count m buff s hp hs
      refine ⟨res, mw, ?_, ?_, hc, hce, hi⟩
      · rw [disk_write_relay m 1 drv buff s count hp hb]; exact h0
      · rw [disk_write_relay m (depth + 1) drv buff s count hp hb]; exact h1

/-- C15 on the board with a card that never fails: the buffer at `0x20001000` is served
directly, the one at `0x20001001` through the scratch sector with the same result at nesting
bound 2 and at nesting bound 7. -/
theorem buffer_routing_witness :
    badBuffer 0x20001000 = false ∧ badBuffer 0x20001001 = true ∧
    (disk_read 1 quietBoard 0 0x20001000 5 2).map (fun r => (r.1, r.2.issued)) =
      some (RES_OK, [Transfer.SD_ReadMultiBlocks 0x20001000 5 2]) ∧
    (disk_read 1 quietBoard 0 0x20001000 5 1).map (fun r => (r.1, r.2.issued)) =
      some (RES_OK, [Transfer.SD_ReadBlock 0x20001000 5]) ∧
    (disk_read 2 quietBoard 0 0x20001001 5 2).map (fun r => (r.1, r.2.issued)) =
      some (RES_OK, [Transfer.SD_ReadBlock 0x20000000 5, Transfer.SD_ReadBlock 0x20000000 6]) ∧
    (∃ res mr, disk_read 2 quietBoard 0 0x20001001 5 2 = some (res, mr) ∧
      disk_read (5 + 2) quietBoard 0 0x20001001 5 2 = some (res, mr) ∧
      mr.copied.length + (if res = RES_OK then 0 else 1) ≤ quietBoard.copied.length + 2 ∧
      (res = RES_OK → mr.copied.length = quietBoard.copied.length + 2) ∧
      mr.issued.length ≤ quietBoard.issued.length + 3 * 2) :=
  ⟨by decide, by decide, by decide, by decide, by decide,
    ((buffer_routing quietBoard 5 0 0x20001001 5 2 rfl).2.2.2.2.2 (by decide) (by decide)).1⟩

end Diskio
